import Mathlib

/-! RealtimeChatApp: presence registry, event router, message ingest, seen receipts

A shallow embedding of `src/lib/socket.js`, `src/pages/api/message.js` and
`src/pages/api/messages/mark-seen.js`.

* JavaScript `Map` objects are association lists in insertion order.
* Strings are Lean strings; a string is truthy exactly when it is non-empty.
* Every handler is a function from the state it reads to the state it leaves
  together with the ordered trace of its outward effects (store calls, emits).
* A store call may throw: `Env.faults` says which calls do.
-/

namespace RealtimeChat

/-! ## JavaScript values -/

/-- Truthiness of a JavaScript string: every string but the empty one. -/
def truthy (s : String) : Bool := !(s == "")

/-- Truthiness of a possibly `undefined` string (`!x` is its negation). -/
def truthyOpt : Option String → Bool
  | none => false
  | some s => truthy s

/-- The code points `String.prototype.trim` strips: ECMAScript WhiteSpace and
LineTerminator. -/
def isJsWhitespace (c : Char) : Bool :=
  let n := c.toNat
  n == 0x09 || n == 0x0A || n == 0x0B || n == 0x0C || n == 0x0D || n == 0x20 ||
  n == 0xA0 || n == 0x1680 || (0x2000 ≤ n && n ≤ 0x200A) || n == 0x2028 ||
  n == 0x2029 || n == 0x202F || n == 0x205F || n == 0x3000 || n == 0xFEFF

/-- Drop the trailing whitespace of a list of characters. -/
def trimEndChars (l : List Char) : List Char :=
  ((l.reverse).dropWhile isJsWhitespace).reverse

/-- `String.prototype.trim`. -/
def jsTrim (s : String) : String :=
  String.mk (trimEndChars (s.data.dropWhile isJsWhitespace))

/-! ## JavaScript `Map` with string keys and values -/

/-- A `Map` from strings to strings, entries in insertion order. -/
abbrev JSMap := List (String × String)

namespace JSMap

/-- `Map.prototype.get`; `none` is `undefined`. -/
def get : JSMap → String → Option String
  | [], _ => none
  | (k', v) :: m, k => if k' = k then some v else get m k

/-- `Map.prototype.set`: an existing key keeps its position, a new one is appended. -/
def set : JSMap → String → String → JSMap
  | [], k, v => [(k, v)]
  | (k', v') :: m, k, v => if k' = k then (k, v) :: m else (k', v') :: set m k v

/-- `Map.prototype.delete`. -/
def delete (m : JSMap) (k : String) : JSMap :=
  m.filter (fun p => !(p.1 == k))

/-- `Map.prototype.has`. -/
def has (m : JSMap) (k : String) : Bool := (get m k).isSome

end JSMap

/-! ## The store (MongoDB through Mongoose) -/

/-- Modelled from the spec: the user schema `models/Users.js` is not among the
sources. A user document has the fields of the persisted layout
`User{identity, onlineFlag, connectionRef, lastSeen}` and Mongo's `_id`. -/
structure User where
  _id : Nat
  username : String
  online : Bool
  socketId : Option String
  lastSeen : Option Nat
  deriving DecidableEq, Repr

/-- Modelled from the spec: the message schema `models/Message.js` is not among
the sources. A message document has the fields of the persisted layout
`Message{id, senderRef, receiverRef, text, createdAt, seen}` and the `updatedAt`
that the recent-partners query sorts by. -/
structure Message where
  _id : Nat
  sender : Nat
  receiver : Nat
  text : String
  seen : Bool
  createdAt : Nat
  updatedAt : Nat
  deriving DecidableEq, Repr

/-- The two collections. -/
structure Store where
  users : List User
  messages : List Message
  deriving DecidableEq, Repr

/-- The store calls the handlers make, with the argument that identifies them. -/
inductive StoreCall where
  | userFindOne (username : String)
  | userFind
  | userFindOneAndUpdate (username : String)
  | messageSave
  | messageFindById (id : Nat)
  | messageFind
  | messageAggregate
  | messageUpdateMany
  deriving DecidableEq, Repr

/-- What a handler run depends on besides the state: whether `db()` (ensure
the connection) throws, which store calls throw, the clock, and whether the
message schema stamps `updatedAt` on updates (the `timestamps` option of
`models/Message.js`, which is not among the sources, is a parameter). -/
structure Env where
  dbFails : Bool
  faults : StoreCall → Bool
  now : Nat
  timestamps : Bool

/-- `User.findOne({ username })`: the first document with that username. -/
def findUser (store : Store) (username : String) : Option User :=
  store.users.find? (fun u => u.username == username)

/-- The user a reference points to, as `populate` resolves it. -/
def findUserById (store : Store) (id : Nat) : Option User :=
  store.users.find? (fun u => u._id == id)

/-- Update the first document of a list that satisfies `p`. -/
def updateFirst {α : Type} (p : α → Bool) (f : α → α) : List α → List α
  | [] => []
  | a :: l => if p a then f a :: l else a :: updateFirst p f l

/-- `User.findOneAndUpdate({ username }, update)`. -/
def findOneAndUpdate (store : Store) (username : String) (f : User → User) : Store :=
  { store with users := updateFirst (fun u => u.username == username) f store.users }

/-! ## Events and effects -/

/-- Payloads of the server-to-client events. -/
inductive Payload where
  | none
  | presenceOnline (username socketId : String)
  | presenceOffline (username : String)
  | typing (from_ : String)
  | messageNew (id : Nat) (sender receiver text : String) (createdAt : Nat)
  | messageClient (sender receiver text : Option String) (createdAt : Nat)
  | messagesSeen (from_ by_ : String)
  deriving DecidableEq, Repr

/-- One outward effect of a handler, in the order the handler performs them. -/
inductive Effect where
  /-- The call `await db()`: ensure the connection; neither a query nor a write. -/
  | dbConnect
  /-- An awaited query or write of the store. -/
  | storeCall (c : StoreCall)
  /-- The call `io.to(sid).emit(event, payload)`. -/
  | emitTo (sid : String) (event : String) (payload : Payload)
  /-- The call `socket.broadcast.emit(event, payload)`: every connection but `sid`. -/
  | broadcast (sid : String) (event : String) (payload : Payload)
  /-- The call `io.emit(event, payload)`: every connection. -/
  | emitAll (event : String) (payload : Payload)
  /-- The call `socket.disconnect()`. -/
  | disconnectSocket (sid : String)
  deriving DecidableEq, Repr

/-- Is the effect an event sent to clients? -/
def Effect.isEvent : Effect → Bool
  | .emitTo _ _ _ => true
  | .broadcast _ _ _ => true
  | .emitAll _ _ => true
  | _ => false

/-- Is the effect a store call? -/
def Effect.isStoreCall : Effect → Bool
  | .storeCall _ => true
  | _ => false

/-- The events of a trace, in order. -/
def events (tr : List Effect) : List Effect := tr.filter Effect.isEvent

/-- The store calls of a trace, in order. -/
def storeCalls (tr : List Effect) : List Effect := tr.filter Effect.isStoreCall

/-! ## `src/lib/socket.js` -/

/-- The module state of `lib/socket.js`: `io` (is it assigned?) and the two
presence maps. -/
structure SocketModule where
  io : Bool
  usernameToSocketId : JSMap
  socketIdToUsername : JSMap
  deriving DecidableEq, Repr

/-- A connecting socket: its id and `socket.handshake?.auth?.username`. -/
structure Socket where
  id : String
  username : Option String
  deriving DecidableEq, Repr

/-- `initIO`: a singleton, assigned on first use. -/
def initIO (srv : SocketModule) : SocketModule := { srv with io := true }

/-- `getSocketIdByUsername`: `usernameToSocketId.get(username) || null`. -/
def getSocketIdByUsername (srv : SocketModule) (username : String) : Option String :=
  match srv.usernameToSocketId.get username with
  | some sid => if truthy sid then some sid else none
  | none => none

/-- `getSocketIdByUsername` at a field of a client payload, which may be
`undefined`: no key of the map is `undefined`. -/
def getSocketIdByField (srv : SocketModule) : Option String → Option String
  | some username => getSocketIdByUsername srv username
  | none => none

/-- `getPresenceSnapshot`: the entries of `usernameToSocketId` copied into a
fresh object `{}`; the result lists the object's own properties in the order
they are assigned. The assignment `snapshot["__proto__"] = sid` of a string
goes to the prototype setter, which ignores it, and creates no own property. -/
def getPresenceSnapshot (srv : SocketModule) : List (String × String) :=
  srv.usernameToSocketId.foldl
    (fun snapshot e => if e.1 = "__proto__" then snapshot else JSMap.set snapshot e.1 e.2) []

/-- `getIO`: throws while `io` is unassigned. -/
def getIO (srv : SocketModule) : Except String Unit :=
  if srv.io then .ok () else .error "Socket.IO not initialized"

/-- The `io.on("connection")` handler, up to the registration of the socket's
own handlers. The handlers below run only for a socket that got past the
username check, and only after `initIO` assigned `io`. -/
def connection (env : Env) (srv : SocketModule) (store : Store) (socket : Socket) :
    SocketModule × Store × List Effect :=
  match socket.username with
  | none => (srv, store, [.disconnectSocket socket.id])
  | some username =>
    if !truthy username then (srv, store, [.disconnectSocket socket.id])
    else
      let srv1 := { srv with usernameToSocketId := srv.usernameToSocketId.set username socket.id }
      let srv2 := { srv1 with socketIdToUsername := srv1.socketIdToUsername.set socket.id username }
      let store1 :=
        if env.faults (.userFindOneAndUpdate username) then store
        else findOneAndUpdate store username
          (fun u => { u with online := true, socketId := some socket.id })
      (srv2, store1,
        [.storeCall (.userFindOneAndUpdate username),
         .broadcast socket.id "presence:online" (.presenceOnline username socket.id)])

/-- Does the connection handler install the socket's handlers? -/
def Socket.accepted (socket : Socket) : Bool := truthyOpt socket.username

/-- The payload of a client's `typing:start` / `typing:stop`: the handler reads
`to` and nothing else of what the client sent. -/
structure TypingEvent where
  to_ : Option String
  from_ : Option String
  deriving DecidableEq, Repr

/-- The `typing:start` handler of a socket connected as `username`. -/
def typingStart (srv : SocketModule) (username : String) (ev : TypingEvent) :
    SocketModule × List Effect :=
  match getSocketIdByField srv ev.to_ with
  | some toSid => (srv, [.emitTo toSid "typing:started" (.typing username)])
  | none => (srv, [])

/-- The `typing:stop` handler of a socket connected as `username`. -/
def typingStop (srv : SocketModule) (username : String) (ev : TypingEvent) :
    SocketModule × List Effect :=
  match getSocketIdByField srv ev.to_ with
  | some toSid => (srv, [.emitTo toSid "typing:stopped" (.typing username)])
  | none => (srv, [])

/-- The payload of a client's `message:client`. -/
structure ClientMessage where
  sender : Option String
  receiver : Option String
  text : Option String
  deriving DecidableEq, Repr

/-- The `message:client` handler. -/
def messageClient (env : Env) (srv : SocketModule) (ev : ClientMessage) :
    SocketModule × List Effect :=
  match getSocketIdByField srv ev.receiver with
  | some receiverSid =>
    (srv, [.emitTo receiverSid "message:new"
      (.messageClient ev.sender ev.receiver ev.text env.now)])
  | none => (srv, [])

/-- The `disconnect` handler of the socket with id `socketId`. -/
def disconnect (env : Env) (srv : SocketModule) (store : Store) (socketId : String) :
    SocketModule × Store × List Effect :=
  match srv.socketIdToUsername.get socketId with
  | none => (srv, store, [])
  | some uname =>
    if !truthy uname then (srv, store, [])
    else
      let srv1 := { srv with usernameToSocketId := srv.usernameToSocketId.delete uname }
      let srv2 := { srv1 with socketIdToUsername := srv1.socketIdToUsername.delete socketId }
      let store1 :=
        if env.faults (.userFindOneAndUpdate uname) then store
        else findOneAndUpdate store uname
          (fun u => { u with online := false, socketId := none, lastSeen := some env.now })
      (srv2, store1,
        [.storeCall (.userFindOneAndUpdate uname),
         .emitAll "presence:offline" (.presenceOffline uname)])

/-! ## Responses and the store queries of the HTTP handlers -/

/-- A populated reference: `populate(path, "username")` keeps `_id` and `username`. -/
structure UserRef where
  _id : Nat
  username : String
  deriving DecidableEq, Repr

/-- A message read back with `populate("sender", "username")` and
`populate("receiver", "username")`; a reference that resolves to no user is `null`. -/
structure Populated where
  _id : Nat
  sender : Option UserRef
  receiver : Option UserRef
  text : String
  seen : Bool
  createdAt : Nat
  updatedAt : Nat
  deriving DecidableEq, Repr

/-- One entry of the recent-partners list. -/
structure PartnerEntry where
  username : String
  unseen : Nat
  deriving DecidableEq, Repr

/-- The JSON (or text) a handler answers with. -/
inductive Body where
  | message (message : String)
  | sent (message : String) (data : Option Populated)
  | messages (list : List Populated)
  | partners (list : List PartnerEntry)
  | marked (message : String) (modifiedCount : Nat)
  | text (allow : List String) (s : String)
  deriving DecidableEq, Repr

/-- An HTTP response. -/
structure Response where
  status : Nat
  body : Body
  deriving DecidableEq, Repr

/-- What a handler run leaves behind: the response (`none` when the handler
rejects before writing one), the store, and the ordered trace of effects. -/
structure Outcome where
  response : Option Response
  store : Store
  trace : List Effect
  deriving DecidableEq, Repr

/-- Resolve one reference. -/
def populateRef (store : Store) (id : Nat) : Option UserRef :=
  (findUserById store id).map (fun u => { _id := u._id, username := u.username })

/-- Resolve both references of a message. -/
def populate (store : Store) (m : Message) : Populated :=
  { _id := m._id
    sender := populateRef store m.sender
    receiver := populateRef store m.receiver
    text := m.text
    seen := m.seen
    createdAt := m.createdAt
    updatedAt := m.updatedAt }

/-- A fresh `_id` for a new message: ObjectIds are unique, here one more than
every id in the collection. -/
def nextId (msgs : List Message) : Nat :=
  (msgs.map (fun m => m._id)).foldr max 0 + 1

/-- `Message.findById(id)`. -/
def findById (store : Store) (id : Nat) : Option Message :=
  store.messages.find? (fun m => m._id == id)

/-- The filter `{ sender, receiver, seen: false }` of both bulk updates. -/
def unseenFrom (senderId receiverId : Nat) (m : Message) : Bool :=
  m.sender == senderId && m.receiver == receiverId && !m.seen

/-- The update `{ $set: { seen: true } }` on one document; a schema with
timestamps also stamps `updatedAt`. -/
def setSeen (env : Env) (m : Message) : Message :=
  { m with seen := true, updatedAt := if env.timestamps then env.now else m.updatedAt }

/-- `Message.updateMany({ sender, receiver, seen: false }, { $set: { seen: true } })`. -/
def updateMany (env : Env) (senderId receiverId : Nat) (store : Store) : Store :=
  { store with
    messages := store.messages.map
      (fun m => if unseenFrom senderId receiverId m then setSeen env m else m) }

/-- The `modifiedCount` of that update. -/
def modifiedCount (senderId receiverId : Nat) (store : Store) : Nat :=
  (store.messages.filter (unseenFrom senderId receiverId)).length

/-- Order of `sort({ createdAt: 1 })`. -/
def createdAsc (a b : Message) : Prop := a.createdAt ≤ b.createdAt

instance : DecidableRel createdAsc := fun a b => Nat.decLe a.createdAt b.createdAt

/-- Order of `sort({ updatedAt: -1 })`. -/
def updatedDesc (a b : Message) : Prop := b.updatedAt ≤ a.updatedAt

instance : DecidableRel updatedDesc := fun a b => Nat.decLe b.updatedAt a.updatedAt

/-- The pair-history query: both directions between `a` and `b`, oldest first. -/
def findPair (store : Store) (a b : Nat) : List Populated :=
  ((store.messages.filter (fun m =>
      (m.sender == a && m.receiver == b) || (m.sender == b && m.receiver == a))).insertionSort
    createdAsc).map (populate store)

/-- The recent-messages query: everything `userId` sent or received, latest
update first. -/
def findRecent (store : Store) (userId : Nat) : List Populated :=
  ((store.messages.filter (fun m => m.sender == userId || m.receiver == userId)).insertionSort
    updatedDesc).map (populate store)

/-- The aggregation `$match { receiver, seen: false }`, `$group` by sender with a
count: one pair per sender. -/
def unseenCounts (store : Store) (receiverId : Nat) : List (Nat × Nat) :=
  let matched := store.messages.filter (fun m => m.receiver == receiverId && !m.seen)
  ((matched.map (fun m => m.sender)).dedup).map
    (fun s => (s, (matched.filter (fun m => m.sender == s)).length))

/-- The value `countMap.get(key) || 0` on the `Map` built from the pairs (a later
pair overrides an earlier one with the same key). -/
def countOf (pairs : List (Nat × Nat)) (key : Nat) : Nat :=
  match pairs.reverse.find? (fun p => p.1 == key) with
  | some p => p.2
  | none => 0

/-- The loop that fills `partners`: the other party of every message, first
occurrence kept. `none` is the `TypeError` of reading `username` of `null`. -/
def collectPartners (user1 : String) :
    List Populated → List (String × UserRef) → Option (List (String × UserRef))
  | [], partners => some partners
  | msg :: rest, partners =>
    match msg.sender with
    | none => none
    | some s =>
      match (if s.username == user1 then msg.receiver else some s) with
      | none => none
      | some partner =>
        if partners.any (fun e => e.1 == partner.username) then
          collectPartners user1 rest partners
        else collectPartners user1 rest (partners ++ [(partner.username, partner)])

/-- The loop that fills `partnerList`: one `User.findOne` per partner. The
second component is `none` when a call throws or finds nobody. -/
def partnerList (env : Env) (store : Store) (countMap : List (Nat × Nat)) :
    List (String × UserRef) → List Effect × Option (List PartnerEntry)
  | [] => ([], some [])
  | (uname, _) :: rest =>
    if env.faults (.userFindOne uname) then ([.storeCall (.userFindOne uname)], none)
    else
      match findUser store uname with
      | none => ([.storeCall (.userFindOne uname)], none)
      | some partnerUser =>
        let r := partnerList env store countMap rest
        (.storeCall (.userFindOne uname) :: r.1,
          r.2.map (fun l => { username := uname, unseen := countOf countMap partnerUser._id } :: l))

/-- The answer of every outer `catch`. -/
def serverError : Response := { status := 500, body := .message "Server error" }

/-- The answer when an identity does not resolve. -/
def userNotFound : Response := { status := 404, body := .message "User not found" }

/-! ## `src/pages/api/message.js` -/

namespace MessageApi

/-- The request: `req.method`, the fields read of `req.body` (POST) and of
`req.query` (GET); `none` is an absent field. -/
structure Request where
  method : String
  senderUsername : Option String
  receiverUsername : Option String
  text : Option String
  user1 : Option String
  user2 : Option String
  recent : Option String
  deriving DecidableEq, Repr

/-- The inner `try` of the POST case: the push to the receiver. Every throw in
it (`getIO`, a field of `null`) is caught and only logged. -/
def push (srv : SocketModule) (senderUsername receiverUsername : String)
    (populated : Option Populated) : List Effect :=
  match getIO srv with
  | .error _ => []
  | .ok _ =>
    let receiverSid := getSocketIdByUsername srv receiverUsername
    let _senderSid := getSocketIdByUsername srv senderUsername
    match populated with
    | none => []
    | some p =>
      match p.sender, p.receiver with
      | some sender, some receiver =>
        match receiverSid with
        | some sid =>
          [.emitTo sid "message:new"
            (.messageNew p._id sender.username receiver.username p.text p.createdAt)]
        | none => []
      | _, _ => []

/-- The document `new Message({ sender, receiver, text: text.trim(), seen: false })`
as `save()` stores it: a fresh `_id`, both timestamps the time of the save. -/
def newMessage (env : Env) (store : Store) (sender receiver : User) (text : String) : Message :=
  { _id := nextId store.messages
    sender := sender._id
    receiver := receiver._id
    text := jsTrim text
    seen := false
    createdAt := env.now
    updatedAt := env.now }

/-- The store after `newMessage.save()`. -/
def save (store : Store) (m : Message) : Store :=
  { store with messages := store.messages ++ [m] }

/-- The `case "POST"`: send a message. -/
def post (env : Env) (srv : SocketModule) (store : Store) (req : Request) : Outcome :=
  match req.senderUsername, req.receiverUsername, req.text with
  | some senderUsername, some receiverUsername, some text =>
    if !truthy senderUsername || !truthy receiverUsername || !truthy (jsTrim text) then
      ⟨some ⟨400, .message "Missing required fields"⟩, store, []⟩
    else
      let t1 : List Effect :=
        [.storeCall (.userFindOne senderUsername), .storeCall (.userFindOne receiverUsername)]
      if env.faults (.userFindOne senderUsername) || env.faults (.userFindOne receiverUsername)
      then ⟨some serverError, store, t1⟩
      else
        match findUser store senderUsername, findUser store receiverUsername with
        | some sender, some receiver =>
          let m := newMessage env store sender receiver text
          let t2 := t1 ++ [.storeCall .messageSave]
          if env.faults .messageSave then ⟨some serverError, store, t2⟩
          else
            let store1 := save store m
            let t3 := t2 ++ [.storeCall (.messageFindById m._id)]
            if env.faults (.messageFindById m._id) then ⟨some serverError, store1, t3⟩
            else
              let populated := (findById store1 m._id).map (populate store1)
              ⟨some ⟨201, .sent "Message sent successfully" populated⟩, store1,
                t3 ++ push srv senderUsername receiverUsername populated⟩
        | _, _ => ⟨some userNotFound, store, t1⟩
  | _, _, _ => ⟨some ⟨400, .message "Missing required fields"⟩, store, []⟩

/-- The recent-partners branch of `case "GET"`, for a truthy `user1`. -/
def recent (env : Env) (store : Store) (user1 : String) : Outcome :=
  let t1 : List Effect := [.storeCall (.userFindOne user1)]
  if env.faults (.userFindOne user1) then ⟨some serverError, store, t1⟩
  else
    match findUser store user1 with
    | none => ⟨some userNotFound, store, t1⟩
    | some user =>
      let t2 := t1 ++ [.storeCall .messageFind]
      if env.faults .messageFind then ⟨some serverError, store, t2⟩
      else
        match collectPartners user1 (findRecent store user._id) [] with
        | none => ⟨some serverError, store, t2⟩
        | some partners =>
          let t3 := t2 ++ [.storeCall .messageAggregate]
          if env.faults .messageAggregate then ⟨some serverError, store, t3⟩
          else
            let r := partnerList env store (unseenCounts store user._id) partners
            match r.2 with
            | none => ⟨some serverError, store, t3 ++ r.1⟩
            | some list => ⟨some ⟨200, .partners list⟩, store, t3 ++ r.1⟩

/-- The direct-history branch of `case "GET"`. -/
def history (env : Env) (store : Store) (req : Request) : Outcome :=
  match req.user1, req.user2 with
  | some user1, some user2 =>
    if !truthy user1 || !truthy user2 then
      ⟨some ⟨400, .message "Missing user parameters"⟩, store, []⟩
    else
      let t1 : List Effect := [.storeCall (.userFindOne user1), .storeCall (.userFindOne user2)]
      if env.faults (.userFindOne user1) || env.faults (.userFindOne user2) then
        ⟨some serverError, store, t1⟩
      else
        match findUser store user1, findUser store user2 with
        | some userA, some userB =>
          let t2 := t1 ++ [.storeCall .messageFind]
          if env.faults .messageFind then ⟨some serverError, store, t2⟩
          else
            let messages := findPair store userA._id userB._id
            let t3 := t2 ++ [.storeCall .messageUpdateMany]
            if env.faults .messageUpdateMany then ⟨some serverError, store, t3⟩
            else ⟨some ⟨200, .messages messages⟩, updateMany env userB._id userA._id store, t3⟩
        | _, _ => ⟨some userNotFound, store, t1⟩
  | _, _ => ⟨some ⟨400, .message "Missing user parameters"⟩, store, []⟩

/-- The `case "GET"`: recent partners when `recent && user1`, else pair history. -/
def get (env : Env) (store : Store) (req : Request) : Outcome :=
  match req.user1 with
  | some user1 =>
    if truthyOpt req.recent && truthy user1 then recent env store user1
    else history env store req
  | none => history env store req

/-- The default export: `await db()`, then the `switch` on the method. -/
def handler (env : Env) (srv : SocketModule) (store : Store) (req : Request) : Outcome :=
  if env.dbFails then ⟨none, store, [.dbConnect]⟩
  else
    let o :=
      if req.method = "POST" then post env srv store req
      else if req.method = "GET" then get env store req
      else ⟨some ⟨405, .text ["POST", "GET"] ("Method " ++ req.method ++ " Not Allowed")⟩,
        store, []⟩
    { o with trace := .dbConnect :: o.trace }

end MessageApi

/-! ## `src/pages/api/messages/mark-seen.js` -/

namespace MarkSeenApi

/-- The request: `req.method` and the two fields read of `req.body`. -/
structure Request where
  method : String
  user1 : Option String
  user2 : Option String
  deriving DecidableEq, Repr

/-- The inner `try`: notify the partner if they are online. -/
def notify (srv : SocketModule) (viewer partner : User) (user1 : String) : List Effect :=
  match getIO srv with
  | .error _ => []
  | .ok _ =>
    match getSocketIdByUsername srv partner.username with
    | some partnerSid =>
      [.emitTo partnerSid "messages:seen" (.messagesSeen viewer.username user1)]
    | none => []

/-- The default export. -/
def handler (env : Env) (srv : SocketModule) (store : Store) (req : Request) : Outcome :=
  if env.dbFails then ⟨none, store, [.dbConnect]⟩
  else if req.method ≠ "POST" then
    ⟨some ⟨405, .text ["POST"] "Method Not Allowed"⟩, store, [.dbConnect]⟩
  else
    match req.user1, req.user2 with
    | some user1, some user2 =>
      if !truthy user1 || !truthy user2 then
        ⟨some ⟨400, .message "Both usernames are required"⟩, store, [.dbConnect]⟩
      else
        let t1 : List Effect :=
          [.dbConnect, .storeCall (.userFindOne user1), .storeCall (.userFindOne user2)]
        if env.faults (.userFindOne user1) || env.faults (.userFindOne user2) then
          ⟨some serverError, store, t1⟩
        else
          match findUser store user1, findUser store user2 with
          | some viewer, some partner =>
            let t2 := t1 ++ [.storeCall .messageUpdateMany]
            if env.faults .messageUpdateMany then ⟨some serverError, store, t2⟩
            else
              ⟨some ⟨200, .marked "Messages marked as seen"
                  (modifiedCount partner._id viewer._id store)⟩,
                updateMany env partner._id viewer._id store,
                t2 ++ notify srv viewer partner user1⟩
          | _, _ => ⟨some userNotFound, store, t1⟩
    | _, _ => ⟨some ⟨400, .message "Both usernames are required"⟩, store, [.dbConnect]⟩

end MarkSeenApi

/-! ## Delivery and sample states -/

/-- Does the effect deliver an event to the live connection `sid`? `io.to(room)`
reaches the socket whose own room `room` is, `socket.broadcast` every socket
but the emitting one, `io.emit` every socket. -/
def Effect.deliveredTo (sid : String) : Effect → Bool
  | .emitTo room _ _ => room == sid
  | .broadcast self _ _ => !(self == sid)
  | .emitAll _ _ => true
  | _ => false

/-- A run in which nothing throws, at time 100, timestamps on. -/
def sampleEnv : Env := ⟨false, fun _ => false, 100, true⟩

/-- Two users. -/
def sampleUsers : List User :=
  [⟨1, "amy", false, none, none⟩, ⟨2, "bob", false, none, none⟩]

/-- One unseen message from `bob` to `amy`, one seen, and one unseen the other way. -/
def sampleStore : Store :=
  ⟨sampleUsers,
    [⟨10, 2, 1, "hi", false, 5, 5⟩, ⟨11, 2, 1, "yo", true, 6, 7⟩, ⟨12, 1, 2, "hey", false, 8, 8⟩]⟩

/-- Both users connected, `io` assigned. -/
def sampleModule : SocketModule :=
  ⟨true, [("amy", "s1"), ("bob", "s2")], [("s1", "amy"), ("s2", "bob")]⟩

/-- Nobody connected, `io` assigned. -/
def offlineModule : SocketModule := ⟨true, [], []⟩

/-- The real-time coordinator not initialised. -/
def uninitModule : SocketModule := ⟨false, [], []⟩

/-- The request `markSeen(amy, bob)`. -/
def sampleMarkSeen : MarkSeenApi.Request := ⟨"POST", some "amy", some "bob"⟩

/-- The submit of `amy` to herself. -/
def selfPost : MessageApi.Request :=
  ⟨"POST", some "amy", some "amy", some " note ", none, none, none⟩

/-- The submit of `amy` to `bob`. -/
def samplePost : MessageApi.Request :=
  ⟨"POST", some "amy", some "bob", some " hello ", none, none, none⟩

/-- The submit of `amy` to somebody unknown. -/
def unknownPost : MessageApi.Request :=
  ⟨"POST", some "amy", some "zed", some "hello", none, none, none⟩

/-- The submit with a blank text. -/
def blankPost : MessageApi.Request :=
  ⟨"POST", some "amy", some "bob", some " \t\n", none, none, none⟩

/-- The pair-history fetch of `amy` with `bob`. -/
def sampleHistory : MessageApi.Request :=
  ⟨"GET", none, none, none, some "amy", some "bob", none⟩

/-! ## `src/pages/api/users.js`, the GET case -/

/-- What reading a property of the presence snapshot can give. -/
inductive JSValue where
  | undefined
  | null
  | string (s : String)
  /-- An object or function, named by where it comes from. -/
  | object (name : String)
  deriving DecidableEq, Repr

/-- Truthiness of such a value: objects and functions are truthy. -/
def JSValue.truthy : JSValue → Bool
  | .string s => RealtimeChat.truthy s
  | .object _ => true
  | _ => false

/-- The property names a plain object inherits from `Object.prototype`. -/
def objectPrototype : List String :=
  ["constructor", "__defineGetter__", "__defineSetter__", "hasOwnProperty",
    "__lookupGetter__", "__lookupSetter__", "isPrototypeOf", "propertyIsEnumerable",
    "toString", "valueOf", "__proto__", "toLocaleString"]

/-- The read `presence[key]` on a plain object with the given own properties:
an own property, else the member inherited from `Object.prototype`, else
`undefined`. -/
def getProperty (own : List (String × String)) (key : String) : JSValue :=
  match JSMap.get own key with
  | some v => .string v
  | none => if key ∈ objectPrototype then .object ("Object.prototype." ++ key) else .undefined

namespace UsersApi

/-- A record of the user list: the stored fields (password removed) with
`online` and `socketId` overwritten. -/
structure MergedUser where
  _id : Nat
  username : String
  online : Bool
  socketId : JSValue
  lastSeen : Option Nat
  deriving DecidableEq, Repr

/-- The callback of `users.map`: `online: !!presence[u.username]` and
`socketId: presence[u.username] || null`. -/
def merge (presence : List (String × String)) (u : User) : MergedUser :=
  { _id := u._id
    username := u.username
    online := (getProperty presence u.username).truthy
    socketId :=
      if (getProperty presence u.username).truthy then getProperty presence u.username
      else .null
    lastSeen := u.lastSeen }

/-- What the GET case answers with. -/
inductive Body where
  | users (list : List MergedUser)
  | message (message : String)
  deriving DecidableEq, Repr

/-- The response of the GET case and its effects; the store is only read. -/
structure Outcome where
  status : Nat
  body : Body
  trace : List Effect
  deriving DecidableEq, Repr

/-- The `case "GET"` of the handler, after `await db()`. `regexTest q name` is
Mongo's case-insensitive `$regex` match of `q` on a username. -/
def get (env : Env) (regexTest : String → String → Bool) (srv : SocketModule) (store : Store)
    (q : Option String) : Outcome :=
  if env.faults .userFind then ⟨500, .message "Server error", [.storeCall .userFind]⟩
  else
    let users := store.users.filter (fun u => if truthyOpt q then regexTest (q.getD "") u.username
      else true)
    let presence := getPresenceSnapshot srv
    ⟨200, .users (users.map (merge presence)), [.storeCall .userFind]⟩

end UsersApi

/-! ## `src/hooks/useSocket.js` and the event names -/

/-- The event names `useSocket` subscribes to with `socket.on`, in source order. -/
def useSocketSubscriptions : List String :=
  ["connect", "disconnect", "users:changed", "message:new", "presence:online",
    "presence:offline", "typing:start", "typing:stop", "messages:seen"]

/-- The transport's own events. -/
def transportEvents : List String := ["connect", "disconnect"]

/-- The event names the server emits to clients: `lib/socket.js`
(`presence:online`, `typing:started`, `typing:stopped`, `message:new`,
`presence:offline`), `api/message.js` (`message:new`), `api/users.js`
(`users:changed`), `api/messages/mark-seen.js` (`messages:seen`). -/
def serverEmits : List String :=
  ["presence:online", "typing:started", "typing:stopped", "message:new", "presence:offline",
    "users:changed", "messages:seen"]

/-- The event names a client sends to the server: the `socket.on` of
`lib/socket.js` inside the connection handler. -/
def serverListens : List String := ["typing:start", "typing:stop", "message:client", "disconnect"]

/-- The event name of an effect, when it is an event. -/
def Effect.eventName : Effect → Option String
  | .emitTo _ event _ => some event
  | .broadcast _ event _ => some event
  | .emitAll event _ => some event
  | _ => none

/-! ## Runs of the registry -/

/-- One step of the registry: a socket connects, or the `disconnect` handler of
a socket id runs; each step with its own environment and store. -/
inductive RegistryStep where
  | connect (env : Env) (store : Store) (socket : Socket)
  | disconnect (env : Env) (store : Store) (socketId : String)

/-- The registry after one step. -/
def RegistryStep.apply (srv : SocketModule) : RegistryStep → SocketModule
  | .connect env store socket => (connection env srv store socket).1
  | .disconnect env store socketId => (RealtimeChat.disconnect env srv store socketId).1

/-- The registry after a run of steps. -/
def runSteps (srv : SocketModule) (steps : List RegistryStep) : SocketModule :=
  steps.foldl RegistryStep.apply srv

/-- The handles of the connect steps of a run, in order. -/
def connectIds : List RegistryStep → List String
  | [] => []
  | .connect _ _ socket :: rest => socket.id :: connectIds rest
  | .disconnect _ _ _ :: rest => connectIds rest

/-- The store with one more user, named `constructor`. -/
def protoStore : Store :=
  ⟨sampleUsers ++ [⟨3, "constructor", false, none, none⟩], []⟩

/-- A run: `amy` connects on `s1`, `bob` on `s2`, `amy` again on `s3`, then
`s1` disconnects. -/
def sampleRun : List RegistryStep :=
  [.connect sampleEnv sampleStore ⟨"s1", some "amy"⟩,
    .connect sampleEnv sampleStore ⟨"s2", some "bob"⟩,
    .connect sampleEnv sampleStore ⟨"s3", some "amy"⟩,
    .disconnect sampleEnv sampleStore "s1"]

/-- Does the first event of a trace come before its first store call? -/
def eventFirst (tr : List Effect) : Bool :=
  decide (tr.findIdx Effect.isEvent < tr.findIdx Effect.isStoreCall)

/-! ## Recent partners: what the claim speaks of -/

/-- The expression `msg.sender.username === user1 ? msg.receiver : msg.sender`
of the loop in `collectPartners`; `none` when it is `null` or its evaluation
throws. -/
def partnerOf (user1 : String) (msg : Populated) : Option UserRef :=
  match msg.sender with
  | none => none
  | some s => if s.username == user1 then msg.receiver else some s

/-- The entry `partners.set(partner.username, partner)` of a user. -/
def partnerKey (p : User) : String × UserRef := (p.username, ⟨p._id, p.username⟩)

/-- The id of the other party of a message that `userId` sent or received. -/
def otherId (userId : Nat) (m : Message) : Nat :=
  if m.sender = userId then m.receiver else m.sender

/-- The users behind `collectPartners`: the other party of each message, a
username kept once, in order of first occurrence. -/
def partnerUsers (store : Store) (userId : Nat) : List Message → List User → List User
  | [], acc => acc
  | m :: rest, acc =>
    match findUserById store (otherId userId m) with
    | none => acc
    | some p =>
      if acc.any (fun q => q.username == p.username) then partnerUsers store userId rest acc
      else partnerUsers store userId rest (acc ++ [p])

/-- In the words of the claim: `m` was sent by one of the two users to the other. -/
def between (userId partnerId : Nat) (m : Message) : Bool :=
  (m.sender == userId && m.receiver == partnerId) ||
    (m.receiver == userId && m.sender == partnerId)

/-- In the words of the claim: the time of the most recent interaction of the
two users, the time the latest message between them was sent (0 if none). -/
def lastInteraction (store : Store) (userId partnerId : Nat) : Nat :=
  ((store.messages.filter (between userId partnerId)).map (fun m => m.createdAt)).foldr max 0

/-- The key the query sorts by, per partner: the latest `updatedAt` of a
message between the two users (0 if none). -/
def lastUpdate (store : Store) (userId partnerId : Nat) : Nat :=
  ((store.messages.filter (between userId partnerId)).map (fun m => m.updatedAt)).foldr max 0

/-- In the words of the claim: the number of stored messages with sender the
partner, receiver the user and `seen = false`. -/
def unseenCount (store : Store) (partnerId userId : Nat) : Nat :=
  store.messages.countP (fun m => m.sender == partnerId && m.receiver == userId && m.seen == false)

/-- A store as the application fills it: user ids are unique, usernames are
unique (registration refuses an existing username), and both references of
every message resolve (no user is ever deleted). -/
def Store.WellFormed (store : Store) : Prop :=
  (∀ u ∈ store.users, ∀ v ∈ store.users, u._id = v._id → u = v) ∧
  (∀ u ∈ store.users, ∀ v ∈ store.users, u.username = v.username → u = v) ∧
  (∀ m ∈ store.messages,
    (∃ u ∈ store.users, u._id = m.sender) ∧ (∃ u ∈ store.users, u._id = m.receiver))

instance (store : Store) : Decidable store.WellFormed := by
  unfold Store.WellFormed
  infer_instance

/-- Three users; `dan` wrote to `amy` once, `eve` twice and later, `amy`
answered `dan` in between; only the answer of `amy` and the first message of
`eve` are seen. -/
def recentStore : Store :=
  ⟨[⟨1, "amy", false, none, none⟩, ⟨4, "dan", false, none, none⟩,
      ⟨5, "eve", false, none, none⟩],
    [⟨20, 4, 1, "d1", false, 5, 5⟩, ⟨21, 1, 4, "a1", true, 6, 6⟩,
      ⟨22, 5, 1, "e1", true, 8, 8⟩, ⟨23, 5, 1, "e2", false, 9, 9⟩]⟩

/-- The recent-partners fetch of `amy`. -/
def sampleRecent : MessageApi.Request :=
  ⟨"GET", none, none, none, some "amy", none, some "true"⟩

/-- Three users; `dan` wrote to `amy` at 5 and then to `eve` at 8; nothing is
seen yet. -/
def bumpStore : Store :=
  ⟨[⟨1, "amy", false, none, none⟩, ⟨4, "dan", false, none, none⟩,
      ⟨5, "eve", false, none, none⟩],
    [⟨30, 4, 1, "d1", false, 5, 5⟩, ⟨31, 4, 5, "d2", false, 8, 8⟩]⟩

/-- The pair-history fetch of `amy` with `dan`. -/
def amyDanHistory : MessageApi.Request :=
  ⟨"GET", none, none, none, some "amy", some "dan", none⟩

/-- The recent-partners fetch of `dan`. -/
def danRecent : MessageApi.Request :=
  ⟨"GET", none, none, none, some "dan", none, some "true"⟩

/-! ## The connection handler around its `await` -/

/-- The connection handler up to its `await` (lines 17 to 33): the username
check, the two registry writes, and the store update handed to the store. -/
def connectionBegin (srv : SocketModule) (socket : Socket) : SocketModule × List Effect :=
  match socket.username with
  | none => (srv, [.disconnectSocket socket.id])
  | some username =>
    if !truthy username then (srv, [.disconnectSocket socket.id])
    else
      let srv1 := { srv with usernameToSocketId := srv.usernameToSocketId.set username socket.id }
      let srv2 := { srv1 with socketIdToUsername := srv1.socketIdToUsername.set socket.id username }
      (srv2, [.storeCall (.userFindOneAndUpdate username)])

/-- The connection handler from the moment its `await` settles (lines 34 to
96): the store as the update leaves it, the broadcast, and the socket's
listeners attached; `listeners` are the socket ids whose `disconnect` listener
is attached. A socket without a username never gets here. -/
def connectionResume (env : Env) (store : Store) (listeners : List String) (socket : Socket) :
    Store × List String × List Effect :=
  match socket.username with
  | none => (store, listeners, [])
  | some username =>
    if !truthy username then (store, listeners, [])
    else
      ((if env.faults (.userFindOneAndUpdate username) then store
        else findOneAndUpdate store username
          (fun u => { u with online := true, socketId := some socket.id })),
        socket.id :: listeners,
        [.broadcast socket.id "presence:online" (.presenceOnline username socket.id)])

/-- A `disconnect` event on the socket `socketId`: the handler of
`socket.on("disconnect")` runs if it is attached, and nothing runs otherwise. -/
def disconnectEvent (env : Env) (srv : SocketModule) (store : Store) (listeners : List String)
    (socketId : String) : SocketModule × Store × List Effect :=
  if socketId ∈ listeners then disconnect env srv store socketId else (srv, store, [])

/-- A run in which every store call throws. -/
def failingEnv : Env := ⟨false, fun _ => true, 7, true⟩

/-! ## Lemmas on `Map` -/

theorem JSMap.get_set_self (m : JSMap) (k v : String) : (m.set k v).get k = some v := by
  induction m with
  | nil => simp [JSMap.set, JSMap.get]
  | cons e m ih =>
    obtain ⟨k', v'⟩ := e
    by_cases h : k' = k <;> simp [JSMap.set, JSMap.get, h, ih]

theorem JSMap.get_set_of_ne (m : JSMap) (k k2 v : String) (hne : k2 ≠ k) :
    (m.set k v).get k2 = m.get k2 := by
  induction m with
  | nil => simp [JSMap.set, JSMap.get, Ne.symm hne]
  | cons e m ih =>
    obtain ⟨k', v'⟩ := e
    by_cases h : k' = k
    · subst h
      simp [JSMap.set, JSMap.get, Ne.symm hne]
    · by_cases h2 : k' = k2
      · subst h2
        simp [JSMap.set, JSMap.get, h]
      · simp [JSMap.set, JSMap.get, h, h2, ih]

theorem JSMap.delete_cons (e : String × String) (m : JSMap) (k : String) :
    JSMap.delete (e :: m) k = if e.1 = k then JSMap.delete m k else e :: JSMap.delete m k := by
  by_cases h : e.1 = k <;> simp [JSMap.delete, List.filter_cons, h]

theorem JSMap.get_delete_self (m : JSMap) (k : String) : (m.delete k).get k = none := by
  induction m with
  | nil => simp [JSMap.delete, JSMap.get]
  | cons e m ih =>
    obtain ⟨k', v'⟩ := e
    by_cases h : k' = k <;> simp [JSMap.delete_cons, h, JSMap.get, ih]

theorem JSMap.get_delete_of_ne (m : JSMap) (k k2 : String) (hne : k2 ≠ k) :
    (m.delete k).get k2 = m.get k2 := by
  induction m with
  | nil => simp [JSMap.delete, JSMap.get]
  | cons e m ih =>
    obtain ⟨k', v'⟩ := e
    by_cases h : k' = k
    · subst h
      simp [JSMap.delete_cons, JSMap.get, Ne.symm hne, ih]
    · by_cases h2 : k' = k2
      · subst h2
        simp [JSMap.delete_cons, h, JSMap.get]
      · simp [JSMap.delete_cons, h, JSMap.get, h2, ih]

theorem truthy_iff (s : String) : truthy s = true ↔ s ≠ "" := by
  simp [truthy]

/-! ## The connection registry -/

/-- What `connection` does to `usernameToSocketId` for an accepted socket. -/
theorem connection_usernameToSocketId (env : Env) (srv : SocketModule) (store : Store)
    (u h : String) (hu : u ≠ "") :
    (connection env srv store ⟨h, some u⟩).1.usernameToSocketId =
      srv.usernameToSocketId.set u h := by
  simp [connection, truthy, hu]

/-- What `connection` does to `socketIdToUsername` for an accepted socket. -/
theorem connection_socketIdToUsername (env : Env) (srv : SocketModule) (store : Store)
    (u h : String) (hu : u ≠ "") :
    (connection env srv store ⟨h, some u⟩).1.socketIdToUsername =
      srv.socketIdToUsername.set h u := by
  simp [connection, truthy, hu]

/-- C1, the code at the failing input: from the empty registry, `h1` connects as
`u`, then `h2` connects as `u` (lookup gives `h2`); the disconnect of the
superseded `h1` still finds `u` under `h1` in `socketIdToUsername` and deletes
the entry of `u`, so the lookup of `u` gives nothing although `h2` is live. -/
theorem disconnect_superseded_clears_newer :
    getSocketIdByUsername
        (connection ⟨false, fun _ => false, 0, false⟩
          (connection ⟨false, fun _ => false, 0, false⟩ ⟨true, [], []⟩ ⟨[], []⟩
            ⟨"h1", some "u"⟩).1 ⟨[], []⟩ ⟨"h2", some "u"⟩).1 "u" = some "h2" ∧
    getSocketIdByUsername
        (disconnect ⟨false, fun _ => false, 0, false⟩
          (connection ⟨false, fun _ => false, 0, false⟩
            (connection ⟨false, fun _ => false, 0, false⟩ ⟨true, [], []⟩ ⟨[], []⟩
              ⟨"h1", some "u"⟩).1 ⟨[], []⟩ ⟨"h2", some "u"⟩).1 ⟨[], []⟩ "h1").1 "u" = none := by
  decide

/-- The same in every state: after `h1` and then `h2 ≠ h1` connect as `u`, the
disconnect of `h1` leaves no entry for `u`. -/
theorem disconnect_superseded_general (env : Env) (srv : SocketModule) (st1 st2 st3 : Store)
    (u h1 h2 : String) (hu : u ≠ "") (hne : h1 ≠ h2) :
    getSocketIdByUsername
      (disconnect env
        (connection env (connection env srv st1 ⟨h1, some u⟩).1 st2 ⟨h2, some u⟩).1
        st3 h1).1 u = none := by
  have hget : (connection env (connection env srv st1 ⟨h1, some u⟩).1 st2
      ⟨h2, some u⟩).1.socketIdToUsername.get h1 = some u := by
    rw [connection_socketIdToUsername _ _ _ _ _ hu, JSMap.get_set_of_ne _ _ _ _ hne,
      connection_socketIdToUsername _ _ _ _ _ hu, JSMap.get_set_self]
  simp [disconnect, hget, truthy, hu, getSocketIdByUsername, JSMap.get_delete_self]

/-- C2: after a connection with handle `h` registers as `u`, the lookup of `u`
gives `h` whatever `u` had before, and the lookup of every other username is
unchanged. (A registering username and a socket id are non-empty strings.) -/
theorem connection_last_connect_wins (env : Env) (srv : SocketModule) (store : Store)
    (u h : String) (hu : u ≠ "") (hh : h ≠ "") :
    getSocketIdByUsername (connection env srv store ⟨h, some u⟩).1 u = some h ∧
    ∀ v, v ≠ u →
      getSocketIdByUsername (connection env srv store ⟨h, some u⟩).1 v =
        getSocketIdByUsername srv v := by
  constructor
  · simp [getSocketIdByUsername, connection_usernameToSocketId _ _ _ _ _ hu,
      JSMap.get_set_self, truthy, hh]
  · intro v hv
    simp [getSocketIdByUsername, connection_usernameToSocketId _ _ _ _ _ hu,
      JSMap.get_set_of_ne _ _ _ _ hv]

/-- Witness of C2: `bob` held `s1`, reconnects on `s2`; `amy` keeps `s0`. -/
theorem connection_last_connect_wins_witness :
    getSocketIdByUsername
        (connection ⟨false, fun _ => false, 0, false⟩
          ⟨true, [("amy", "s0"), ("bob", "s1")], [("s0", "amy"), ("s1", "bob")]⟩ ⟨[], []⟩
          ⟨"s2", some "bob"⟩).1 "bob" = some "s2" ∧
    ∀ v, v ≠ "bob" →
      getSocketIdByUsername
          (connection ⟨false, fun _ => false, 0, false⟩
            ⟨true, [("amy", "s0"), ("bob", "s1")], [("s0", "amy"), ("s1", "bob")]⟩ ⟨[], []⟩
            ⟨"s2", some "bob"⟩).1 v =
        getSocketIdByUsername
          ⟨true, [("amy", "s0"), ("bob", "s1")], [("s0", "amy"), ("s1", "bob")]⟩ v :=
  connection_last_connect_wins _ _ _ "bob" "s2" (by decide) (by decide)

/-- C9: a `typing:start` (resp. `typing:stop`) with target `t` on a connection
registered as `f`: when the lookup of `t` gives a handle, exactly one
`typing:started` (resp. `typing:stopped`) with payload `from = f` goes to that
handle, whatever `from` the client sent; when it gives none, nothing is emitted;
the handler always returns and leaves the registry as it was. -/
theorem typing_relay (srv : SocketModule) (f t : String) (clientFrom : Option String) :
    (∀ h, getSocketIdByUsername srv t = some h →
      typingStart srv f ⟨some t, clientFrom⟩ = (srv, [.emitTo h "typing:started" (.typing f)]) ∧
      typingStop srv f ⟨some t, clientFrom⟩ = (srv, [.emitTo h "typing:stopped" (.typing f)])) ∧
    (getSocketIdByUsername srv t = none →
      typingStart srv f ⟨some t, clientFrom⟩ = (srv, []) ∧
      typingStop srv f ⟨some t, clientFrom⟩ = (srv, [])) := by
  constructor
  · intro h hh
    simp [typingStart, typingStop, getSocketIdByField, hh]
  · intro hh
    simp [typingStart, typingStop, getSocketIdByField, hh]

/-- Witness of C9: `amy` is on `s0`, `bob` is offline; the client claims to be `eve`. -/
theorem typing_relay_witness :
    (typingStart ⟨true, [("amy", "s0")], [("s0", "amy")]⟩ "carl" ⟨some "amy", some "eve"⟩ =
        (⟨true, [("amy", "s0")], [("s0", "amy")]⟩,
          [.emitTo "s0" "typing:started" (.typing "carl")]) ∧
      typingStop ⟨true, [("amy", "s0")], [("s0", "amy")]⟩ "carl" ⟨some "amy", some "eve"⟩ =
        (⟨true, [("amy", "s0")], [("s0", "amy")]⟩,
          [.emitTo "s0" "typing:stopped" (.typing "carl")])) ∧
    (typingStart ⟨true, [("amy", "s0")], [("s0", "amy")]⟩ "carl" ⟨some "bob", some "eve"⟩ =
        (⟨true, [("amy", "s0")], [("s0", "amy")]⟩, []) ∧
      typingStop ⟨true, [("amy", "s0")], [("s0", "amy")]⟩ "carl" ⟨some "bob", some "eve"⟩ =
        (⟨true, [("amy", "s0")], [("s0", "amy")]⟩, [])) :=
  ⟨(typing_relay ⟨true, [("amy", "s0")], [("s0", "amy")]⟩ "carl" "amy" (some "eve")).1 "s0"
      (by decide),
    (typing_relay ⟨true, [("amy", "s0")], [("s0", "amy")]⟩ "carl" "bob" (some "eve")).2
      (by decide)⟩

/-! ## Seen receipts -/

/-- The bulk update leaves the users alone. -/
theorem findUser_updateMany (env : Env) (a b : Nat) (store : Store) (u : String) :
    findUser (updateMany env a b store) u = findUser store u := by
  simp [findUser, updateMany]

/-- After the bulk update nothing matches its filter. -/
theorem unseenFrom_setSeen (env : Env) (a b : Nat) (m : Message) :
    unseenFrom a b (setSeen env m) = false := by
  simp [unseenFrom, setSeen]

/-- A second bulk update modifies nothing. -/
theorem modifiedCount_updateMany (env : Env) (a b : Nat) (store : Store) :
    modifiedCount a b (updateMany env a b store) = 0 := by
  simp only [modifiedCount, updateMany, List.length_eq_zero, List.filter_eq_nil_iff,
    List.mem_map]
  rintro m ⟨m0, -, rfl⟩
  by_cases h : unseenFrom a b m0 = true
  · simp [h, unseenFrom_setSeen]
  · simp [h]

/-- A second bulk update changes nothing. -/
theorem updateMany_idem (env : Env) (a b : Nat) (store : Store) :
    updateMany env a b (updateMany env a b store) = updateMany env a b store := by
  simp only [updateMany, List.map_map]
  congr 1
  apply List.map_congr_left
  intro m _
  by_cases h : unseenFrom a b m = true
  · simp [h, unseenFrom_setSeen]
  · simp [h]

/-- The notification consists of events only. -/
theorem MarkSeenApi.events_notify (srv : SocketModule) (viewer partner : User) (user1 : String) :
    events (MarkSeenApi.notify srv viewer partner user1) =
      MarkSeenApi.notify srv viewer partner user1 := by
  unfold MarkSeenApi.notify
  split
  · rfl
  · split <;> rfl

/-- The run of the mark-seen handler for resolvable users when no call throws. -/
theorem MarkSeenApi.handler_ok (env : Env) (srv : SocketModule) (store : Store)
    (req : MarkSeenApi.Request) (user1 user2 : String) (viewer partner : User)
    (hdb : env.dbFails = false) (hm : req.method = "POST")
    (h1 : req.user1 = some user1) (h2 : req.user2 = some user2)
    (ht1 : user1 ≠ "") (ht2 : user2 ≠ "")
    (hf1 : env.faults (.userFindOne user1) = false)
    (hf2 : env.faults (.userFindOne user2) = false)
    (hf3 : env.faults .messageUpdateMany = false)
    (hv : findUser store user1 = some viewer) (hp : findUser store user2 = some partner) :
    MarkSeenApi.handler env srv store req =
      ⟨some ⟨200, .marked "Messages marked as seen" (modifiedCount partner._id viewer._id store)⟩,
        updateMany env partner._id viewer._id store,
        [.dbConnect, .storeCall (.userFindOne user1), .storeCall (.userFindOne user2),
          .storeCall .messageUpdateMany] ++ MarkSeenApi.notify srv viewer partner user1⟩ := by
  simp [MarkSeenApi.handler, hdb, hm, h1, h2, truthy, ht1, ht2, hf1, hf2, hf3, hv, hp]

/-- C3, counterexample: `bob` is online and has one unseen message to `amy`. The
first `markSeen(amy, bob)` modifies one message; the second, issued directly
after it, modifies none and still emits `messages:seen` to `bob`. -/
theorem markSeen_second_call_emits :
    (MarkSeenApi.handler sampleEnv sampleModule sampleStore sampleMarkSeen).response =
      some ⟨200, .marked "Messages marked as seen" 1⟩ ∧
    (MarkSeenApi.handler sampleEnv sampleModule
        (MarkSeenApi.handler sampleEnv sampleModule sampleStore sampleMarkSeen).store
        sampleMarkSeen).response =
      some ⟨200, .marked "Messages marked as seen" 0⟩ ∧
    events (MarkSeenApi.handler sampleEnv sampleModule
        (MarkSeenApi.handler sampleEnv sampleModule sampleStore sampleMarkSeen).store
        sampleMarkSeen).trace =
      [.emitTo "s2" "messages:seen" (.messagesSeen "amy" "amy")] := by
  decide

/-- C3, amended: for resolvable viewer and partner (no call throwing) the
mark-seen handler emits `messages:seen` if and only if the coordinator is
initialised and the partner has a registered connection, whatever the modified
count; the event goes to the partner's handle with `from` and `by` the viewer.
A second `markSeen` directly after the first modifies nothing, leaves the store
as the first left it, and emits exactly what the first emitted. -/
theorem markSeen_emits_iff_partner_online (env : Env) (srv : SocketModule) (store : Store)
    (req : MarkSeenApi.Request) (user1 user2 : String) (viewer partner : User)
    (hdb : env.dbFails = false) (hm : req.method = "POST")
    (h1 : req.user1 = some user1) (h2 : req.user2 = some user2)
    (ht1 : user1 ≠ "") (ht2 : user2 ≠ "")
    (hf1 : env.faults (.userFindOne user1) = false)
    (hf2 : env.faults (.userFindOne user2) = false)
    (hf3 : env.faults .messageUpdateMany = false)
    (hv : findUser store user1 = some viewer) (hp : findUser store user2 = some partner) :
    (events (MarkSeenApi.handler env srv store req).trace ≠ [] ↔
      srv.io = true ∧ ∃ sid, getSocketIdByUsername srv partner.username = some sid) ∧
    (∀ sid, srv.io = true → getSocketIdByUsername srv partner.username = some sid →
      events (MarkSeenApi.handler env srv store req).trace =
        [.emitTo sid "messages:seen" (.messagesSeen viewer.username user1)]) ∧
    (MarkSeenApi.handler env srv store req).response =
      some ⟨200, .marked "Messages marked as seen" (modifiedCount partner._id viewer._id store)⟩ ∧
    (MarkSeenApi.handler env srv (MarkSeenApi.handler env srv store req).store req).response =
      some ⟨200, .marked "Messages marked as seen" 0⟩ ∧
    (MarkSeenApi.handler env srv (MarkSeenApi.handler env srv store req).store req).store =
      (MarkSeenApi.handler env srv store req).store ∧
    events (MarkSeenApi.handler env srv (MarkSeenApi.handler env srv store req).store req).trace =
      events (MarkSeenApi.handler env srv store req).trace := by
  have e1 := MarkSeenApi.handler_ok env srv store req user1 user2 viewer partner
    hdb hm h1 h2 ht1 ht2 hf1 hf2 hf3 hv hp
  have e2 := MarkSeenApi.handler_ok env srv (updateMany env partner._id viewer._id store) req
    user1 user2 viewer partner hdb hm h1 h2 ht1 ht2 hf1 hf2 hf3
    (by rw [findUser_updateMany]; exact hv) (by rw [findUser_updateMany]; exact hp)
  have ev : ∀ st, events ([Effect.dbConnect, .storeCall (.userFindOne user1),
      .storeCall (.userFindOne user2), .storeCall .messageUpdateMany] ++
      MarkSeenApi.notify srv viewer partner st) = MarkSeenApi.notify srv viewer partner st := by
    intro st
    have := MarkSeenApi.events_notify srv viewer partner st
    simp only [events] at this ⊢
    simp [List.filter_append, Effect.isEvent, this, List.filter_cons]
  rw [e1]
  simp only []
  rw [e2]
  simp only [ev, modifiedCount_updateMany, updateMany_idem]
  refine ⟨?_, ?_, ?_⟩
  · unfold MarkSeenApi.notify getIO
    cases hio : srv.io <;> cases hl : getSocketIdByUsername srv partner.username <;> simp
  · intro sid hio hl
    simp [MarkSeenApi.notify, getIO, hio, hl]
  · simp

/-- Witness of C3 amended: `amy` marks `bob` seen while `bob` is online. -/
theorem markSeen_emits_iff_partner_online_witness :
    events (MarkSeenApi.handler sampleEnv sampleModule sampleStore sampleMarkSeen).trace ≠ [] ↔
      sampleModule.io = true ∧
        ∃ sid, getSocketIdByUsername sampleModule "bob" = some sid :=
  (markSeen_emits_iff_partner_online sampleEnv sampleModule sampleStore sampleMarkSeen
    "amy" "bob" ⟨1, "amy", false, none, none⟩ ⟨2, "bob", false, none, none⟩
    rfl rfl rfl rfl (by decide) (by decide) rfl rfl rfl (by decide) (by decide)).1

/-! ## Message ingest -/

/-- Every id of the collection is below the fresh one. -/
theorem lt_nextId (msgs : List Message) (m : Message) (hm : m ∈ msgs) :
    m._id < nextId msgs := by
  induction msgs with
  | nil => cases hm
  | cons a l ih =>
    simp only [nextId, List.map_cons, List.foldr_cons] at ih ⊢
    rcases List.mem_cons.mp hm with rfl | h
    · omega
    · have := ih h
      omega

/-- Reading back a message saved under the fresh id finds that message. -/
theorem findById_saved (store : Store) (m : Message) (hid : m._id = nextId store.messages) :
    findById (MessageApi.save store m) m._id = some m := by
  have hnone : store.messages.find? (fun x => x._id == m._id) = none := by
    rw [List.find?_eq_none]
    intro x hx
    have := lt_nextId store.messages x hx
    simp
    omega
  simp [findById, MessageApi.save, List.find?_append, hnone]

/-- The push consists of events only. -/
theorem MessageApi.events_push (srv : SocketModule) (s r : String) (p : Option Populated) :
    events (MessageApi.push srv s r p) = MessageApi.push srv s r p := by
  simp only [MessageApi.push]
  repeat' split
  all_goals rfl

/-- The push is empty or one `message:new` to the receiver's registered handle. -/
theorem MessageApi.push_cases (srv : SocketModule) (s r : String) (p : Option Populated) :
    MessageApi.push srv s r p = [] ∨
    ∃ sid payload, getSocketIdByUsername srv r = some sid ∧
      MessageApi.push srv s r p = [.emitTo sid "message:new" payload] := by
  simp only [MessageApi.push]
  repeat' split
  all_goals first
    | exact Or.inl rfl
    | exact Or.inr ⟨_, _, by assumption, rfl⟩

/-- The GET case never answers 201. -/
theorem MessageApi.get_ne_201 (env : Env) (store : Store) (req : MessageApi.Request)
    (b : Body) : (MessageApi.get env store req).response ≠ some ⟨201, b⟩ := by
  simp only [MessageApi.get, MessageApi.recent, MessageApi.history]
  repeat' split
  all_goals simp [serverError, userNotFound]

/-- The run of a valid submit when no store call throws. -/
theorem MessageApi.handler_post_ok (env : Env) (srv : SocketModule) (store : Store)
    (req : MessageApi.Request) (s r text : String) (sender receiver : User)
    (hdb : env.dbFails = false) (hm : req.method = "POST")
    (hs : req.senderUsername = some s) (hr : req.receiverUsername = some r)
    (ht : req.text = some text) (hs1 : s ≠ "") (hr1 : r ≠ "") (ht1 : jsTrim text ≠ "")
    (hf1 : env.faults (.userFindOne s) = false) (hf2 : env.faults (.userFindOne r) = false)
    (hf3 : env.faults .messageSave = false)
    (hf4 : env.faults (.messageFindById (nextId store.messages)) = false)
    (hfs : findUser store s = some sender) (hfr : findUser store r = some receiver) :
    MessageApi.handler env srv store req =
      ⟨some ⟨201, .sent "Message sent successfully"
          (some (populate (MessageApi.save store (MessageApi.newMessage env store sender receiver text))
            (MessageApi.newMessage env store sender receiver text)))⟩,
        MessageApi.save store (MessageApi.newMessage env store sender receiver text),
        [.dbConnect, .storeCall (.userFindOne s), .storeCall (.userFindOne r),
          .storeCall .messageSave, .storeCall (.messageFindById (nextId store.messages))] ++
          MessageApi.push srv s r
            (some (populate
              (MessageApi.save store (MessageApi.newMessage env store sender receiver text))
              (MessageApi.newMessage env store sender receiver text)))⟩ := by
  have hid : (MessageApi.newMessage env store sender receiver text)._id = nextId store.messages :=
    rfl
  have hfind := findById_saved store _ hid
  rw [hid] at hfind
  simp [MessageApi.handler, MessageApi.post, hdb, hm, hs, hr, ht, truthy, hs1, hr1, ht1,
    hf1, hf2, hf3, hf4, hfs, hfr, hid, hfind]

/-- A 201 comes only from a valid submit on which no store call threw. -/
theorem MessageApi.handler_201_inv (env : Env) (srv : SocketModule) (store : Store)
    (req : MessageApi.Request) (b : Body)
    (h : (MessageApi.handler env srv store req).response = some ⟨201, b⟩) :
    ∃ s r text sender receiver,
      env.dbFails = false ∧ req.method = "POST" ∧
      req.senderUsername = some s ∧ req.receiverUsername = some r ∧ req.text = some text ∧
      s ≠ "" ∧ r ≠ "" ∧ jsTrim text ≠ "" ∧
      env.faults (.userFindOne s) = false ∧ env.faults (.userFindOne r) = false ∧
      env.faults .messageSave = false ∧
      env.faults (.messageFindById (nextId store.messages)) = false ∧
      findUser store s = some sender ∧ findUser store r = some receiver := by
  by_cases hdb : env.dbFails = true
  · simp [MessageApi.handler, hdb] at h
  by_cases hm : req.method = "POST"
  swap
  · by_cases hg : req.method = "GET"
    · simp [MessageApi.handler, hdb, hm, hg] at h
      exact absurd h (MessageApi.get_ne_201 env store req b)
    · simp [MessageApi.handler, hdb, hm, hg] at h
  simp only [MessageApi.handler, hdb, hm, if_true, Bool.false_eq_true, if_false] at h
  rcases hs : req.senderUsername with _ | s
  · simp [MessageApi.post, hs] at h
  rcases hr : req.receiverUsername with _ | r
  · simp [MessageApi.post, hs, hr] at h
  rcases ht : req.text with _ | text
  · simp [MessageApi.post, hs, hr, ht] at h
  by_cases hv : (!truthy s || !truthy r || !truthy (jsTrim text)) = true
  · simp [MessageApi.post, hs, hr, ht, hv] at h
  by_cases hf : (env.faults (.userFindOne s) || env.faults (.userFindOne r)) = true
  · simp [MessageApi.post, hs, hr, ht, hv, hf, serverError] at h
  rcases hfs : findUser store s with _ | sender
  · simp [MessageApi.post, hs, hr, ht, hv, hf, hfs, userNotFound] at h
  rcases hfr : findUser store r with _ | receiver
  · simp [MessageApi.post, hs, hr, ht, hv, hf, hfs, hfr, userNotFound] at h
  by_cases hf3 : env.faults .messageSave = true
  · simp [MessageApi.post, hs, hr, ht, hv, hf, hfs, hfr, hf3, serverError] at h
  by_cases hf4 : env.faults (.messageFindById (nextId store.messages)) = true
  · simp [MessageApi.post, hs, hr, ht, hv, hf, hfs, hfr, hf3, hf4, serverError,
      MessageApi.newMessage] at h
  refine ⟨s, r, text, sender, receiver, ?_⟩
  simp only [Bool.or_eq_true, Bool.not_eq_true', not_or, Bool.not_eq_false, truthy_iff,
    Bool.not_eq_true] at hv hf
  simp at hdb hf3 hf4
  exact ⟨hdb, hm, rfl, rfl, rfl, hv.1.1, hv.1.2, hv.2, hf.1, hf.2, hf3, hf4, hfs, hfr⟩

/-- C4, counterexample: `amy`, online on `s1`, submits a message to herself; the
submit answers 201 and the one `message:new` goes to `s1`, the handle registered
for the sender. -/
theorem post_to_self_reaches_sender :
    ((MessageApi.handler sampleEnv sampleModule sampleStore selfPost).response.map
      (fun res => res.status)) = some 201 ∧
    getSocketIdByUsername sampleModule "amy" = some "s1" ∧
    events (MessageApi.handler sampleEnv sampleModule sampleStore selfPost).trace =
      [.emitTo "s1" "message:new" (.messageNew 13 "amy" "amy" "note" 100)] ∧
    (Effect.emitTo "s1" "message:new" (.messageNew 13 "amy" "amy" "note" 100)).deliveredTo "s1"
      = true := by
  decide

/-- C4, amended: on every submit answered 201 the events emitted are none or
exactly one `message:new` addressed to the receiver's registered handle, and no
effect delivers anything to the handle registered for the sender unless that
handle is also the receiver's registered handle. -/
theorem post_pushes_only_to_receiver (env : Env) (srv : SocketModule) (store : Store)
    (req : MessageApi.Request) (b : Body)
    (h : (MessageApi.handler env srv store req).response = some ⟨201, b⟩) :
    ∃ s r, req.senderUsername = some s ∧ req.receiverUsername = some r ∧
      (events (MessageApi.handler env srv store req).trace = [] ∨
        ∃ sid payload, getSocketIdByUsername srv r = some sid ∧
          events (MessageApi.handler env srv store req).trace =
            [.emitTo sid "message:new" payload]) ∧
      (∀ hs, getSocketIdByUsername srv s = some hs → getSocketIdByUsername srv r ≠ some hs →
        ∀ e ∈ (MessageApi.handler env srv store req).trace, e.deliveredTo hs = false) := by
  obtain ⟨s, r, text, sender, receiver, hdb, hm, hs, hr, ht, hs1, hr1, ht1, hf1, hf2, hf3, hf4,
    hfs, hfr⟩ := MessageApi.handler_201_inv env srv store req b h
  have hok := MessageApi.handler_post_ok env srv store req s r text sender receiver hdb hm hs hr
    ht hs1 hr1 ht1 hf1 hf2 hf3 hf4 hfs hfr
  refine ⟨s, r, hs, hr, ?_, ?_⟩
  · rw [hok]
    have hev : ∀ p, events ([Effect.dbConnect, .storeCall (.userFindOne s),
        .storeCall (.userFindOne r), .storeCall .messageSave,
        .storeCall (.messageFindById (nextId store.messages))] ++ MessageApi.push srv s r p) =
        MessageApi.push srv s r p := by
      intro p
      have := MessageApi.events_push srv s r p
      simp only [events] at this ⊢
      simp [List.filter_append, Effect.isEvent, this, List.filter_cons]
    simp only [hev]
    exact MessageApi.push_cases srv s r _
  · intro hs' _ hne e he
    rw [hok] at he
    simp only [List.mem_append, List.mem_cons, List.mem_singleton, List.not_mem_nil,
      or_false] at he
    rcases he with he | he
    · rcases he with rfl | rfl | rfl | rfl | rfl <;> rfl
    · rcases MessageApi.push_cases srv s r
        (some (populate
          (MessageApi.save store (MessageApi.newMessage env store sender receiver text))
          (MessageApi.newMessage env store sender receiver text))) with h0 | ⟨sid, pl, hsid, h1⟩
      · rw [h0] at he
        cases he
      · rw [h1] at he
        rw [List.mem_singleton] at he
        subst he
        have : sid ≠ hs' := fun hEq => hne (hEq ▸ hsid)
        simp [Effect.deliveredTo, this]

/-- Witness of C4 amended: `amy` submits to `bob`, both online. -/
theorem post_pushes_only_to_receiver_witness :
    ∃ s r, samplePost.senderUsername = some s ∧ samplePost.receiverUsername = some r ∧
      (events (MessageApi.handler sampleEnv sampleModule sampleStore samplePost).trace = [] ∨
        ∃ sid payload, getSocketIdByUsername sampleModule r = some sid ∧
          events (MessageApi.handler sampleEnv sampleModule sampleStore samplePost).trace =
            [.emitTo sid "message:new" payload]) ∧
      (∀ hs, getSocketIdByUsername sampleModule s = some hs →
        getSocketIdByUsername sampleModule r ≠ some hs →
        ∀ e ∈ (MessageApi.handler sampleEnv sampleModule sampleStore samplePost).trace,
          e.deliveredTo hs = false) :=
  post_pushes_only_to_receiver sampleEnv sampleModule sampleStore samplePost
    (.sent "Message sent successfully"
      (some ⟨13, some ⟨1, "amy"⟩, some ⟨2, "bob"⟩, "hello", false, 100, 100⟩))
    (by decide)

/-- C6: a submit with sender, receiver and text present whose sender or receiver
does not resolve leaves the store as it was, emits no event and never calls
`save`; it answers 404 (when `db()` and the two lookups do not throw). -/
theorem post_unknown_user (env : Env) (srv : SocketModule) (store : Store)
    (req : MessageApi.Request) (s r text : String) (hm : req.method = "POST")
    (hs : req.senderUsername = some s) (hr : req.receiverUsername = some r)
    (ht : req.text = some text) (hs1 : s ≠ "") (hr1 : r ≠ "") (ht1 : jsTrim text ≠ "")
    (hunk : findUser store s = none ∨ findUser store r = none) :
    (MessageApi.handler env srv store req).store = store ∧
    events (MessageApi.handler env srv store req).trace = [] ∧
    Effect.storeCall .messageSave ∉ (MessageApi.handler env srv store req).trace ∧
    (env.dbFails = false → env.faults (.userFindOne s) = false →
      env.faults (.userFindOne r) = false →
      (MessageApi.handler env srv store req).response =
        some ⟨404, .message "User not found"⟩) := by
  have hmatch : ∀ (k : User → User → Outcome) (d : Outcome),
      (match findUser store s, findUser store r with
        | some a, some b => k a b
        | _, _ => d) = d := by
    intro k d
    rcases hunk with h | h
    · rw [h]
    · rw [h]
      cases findUser store s <;> rfl
  cases hdb : env.dbFails
  · cases hf1 : env.faults (.userFindOne s) <;> cases hf2 : env.faults (.userFindOne r) <;>
      simp [MessageApi.handler, MessageApi.post, hdb, hm, hs, hr, ht, truthy, hs1, hr1, ht1,
        hf1, hf2, hmatch, events, Effect.isEvent, userNotFound, serverError]
  · simp [MessageApi.handler, hdb, events, Effect.isEvent]

/-- Witness of C6: `amy` submits to the unknown `zed`. -/
theorem post_unknown_user_witness :
    (MessageApi.handler sampleEnv sampleModule sampleStore unknownPost).store = sampleStore ∧
    events (MessageApi.handler sampleEnv sampleModule sampleStore unknownPost).trace = [] ∧
    Effect.storeCall .messageSave ∉
      (MessageApi.handler sampleEnv sampleModule sampleStore unknownPost).trace ∧
    (sampleEnv.dbFails = false → sampleEnv.faults (.userFindOne "amy") = false →
      sampleEnv.faults (.userFindOne "zed") = false →
      (MessageApi.handler sampleEnv sampleModule sampleStore unknownPost).response =
        some ⟨404, .message "User not found"⟩) :=
  post_unknown_user sampleEnv sampleModule sampleStore unknownPost "amy" "zed" "hello"
    rfl rfl rfl rfl (by decide) (by decide) (by decide) (Or.inr (by decide))

/-- What a submit does to the store: nothing, or it appends the new message. -/
theorem MessageApi.post_store (env : Env) (srv : SocketModule) (store : Store)
    (req : MessageApi.Request) :
    (MessageApi.post env srv store req).store = store ∨
    ∃ text sender receiver, req.text = some text ∧ jsTrim text ≠ "" ∧
      (MessageApi.post env srv store req).store =
        MessageApi.save store (MessageApi.newMessage env store sender receiver text) := by
  simp only [MessageApi.post]
  split
  · rename_i s r text hs hr ht
    split
    · exact Or.inl rfl
    · rename_i hv
      split
      · exact Or.inl rfl
      · split
        · rename_i sender receiver _ _
          have htext : jsTrim text ≠ "" := by
            simp only [Bool.or_eq_true, Bool.not_eq_true', not_or, Bool.not_eq_false,
              truthy_iff] at hv
            exact hv.2
          split
          · exact Or.inl rfl
          · split
            · exact Or.inr ⟨text, sender, receiver, ht, htext, rfl⟩
            · exact Or.inr ⟨text, sender, receiver, ht, htext, rfl⟩
        · exact Or.inl rfl
  · exact Or.inl rfl

/-- C7: a submit whose sender or receiver is missing or empty, or whose text is
missing or empty after trimming, leaves the store as it was with no query, no
write and no event, and answers 400 (when `db()` does not throw); and every
submit either leaves the store as it was or appends one message whose text is
the trimmed text of the request, non-empty, with `seen = false`. -/
theorem post_validation (env : Env) (srv : SocketModule) (store : Store)
    (req : MessageApi.Request) (hm : req.method = "POST") :
    ((truthyOpt req.senderUsername = false ∨ truthyOpt req.receiverUsername = false ∨
        truthyOpt (req.text.map jsTrim) = false) →
      (MessageApi.handler env srv store req).store = store ∧
      storeCalls (MessageApi.handler env srv store req).trace = [] ∧
      events (MessageApi.handler env srv store req).trace = [] ∧
      (env.dbFails = false →
        (MessageApi.handler env srv store req).response =
          some ⟨400, .message "Missing required fields"⟩)) ∧
    ((MessageApi.handler env srv store req).store = store ∨
      ∃ text m, req.text = some text ∧
        (MessageApi.handler env srv store req).store =
          { store with messages := store.messages ++ [m] } ∧
        m.text = jsTrim text ∧ m.text ≠ "" ∧ m.seen = false) := by
  constructor
  · intro hbad
    cases hdb : env.dbFails
    swap
    · simp [MessageApi.handler, hdb, events, storeCalls, Effect.isEvent, Effect.isStoreCall]
    have hpost : MessageApi.post env srv store req =
        ⟨some ⟨400, .message "Missing required fields"⟩, store, []⟩ := by
      simp only [MessageApi.post]
      split
      · rename_i s r text hs hr ht
        simp only [hs, hr, ht, truthyOpt, Option.map] at hbad
        have : (!truthy s || !truthy r || !truthy (jsTrim text)) = true := by
          rcases hbad with h | h | h <;> simp [h]
        simp [this]
      · rfl
    simp [MessageApi.handler, hdb, hm, hpost, events, storeCalls, Effect.isEvent,
      Effect.isStoreCall]
  · cases hdb : env.dbFails
    swap
    · simp [MessageApi.handler, hdb]
    have hst : (MessageApi.handler env srv store req).store =
        (MessageApi.post env srv store req).store := by
      simp [MessageApi.handler, hdb, hm]
    rw [hst]
    rcases MessageApi.post_store env srv store req with h | ⟨text, sender, receiver, ht, hne, h⟩
    · exact Or.inl h
    · exact Or.inr ⟨text, MessageApi.newMessage env store sender receiver text, ht, h, rfl,
        hne, rfl⟩

/-- Witness of C7: a submit whose text is blanks only. -/
theorem post_validation_witness :
    (MessageApi.handler sampleEnv sampleModule sampleStore blankPost).store = sampleStore ∧
    storeCalls (MessageApi.handler sampleEnv sampleModule sampleStore blankPost).trace = [] ∧
    events (MessageApi.handler sampleEnv sampleModule sampleStore blankPost).trace = [] ∧
    (sampleEnv.dbFails = false →
      (MessageApi.handler sampleEnv sampleModule sampleStore blankPost).response =
        some ⟨400, .message "Missing required fields"⟩) :=
  (post_validation sampleEnv sampleModule sampleStore blankPost rfl).1
    (Or.inr (Or.inr (by decide)))

/-- C8: for a valid submit whose store calls succeed, the response is 201 with
the read-back persisted message and the store is the old one plus that message,
the same for every state of the real-time module: `io` unassigned (`getIO`
throws), receiver offline, receiver online. -/
theorem post_result_independent_of_push (env : Env) (store : Store)
    (req : MessageApi.Request) (s r text : String) (sender receiver : User)
    (hdb : env.dbFails = false) (hm : req.method = "POST")
    (hs : req.senderUsername = some s) (hr : req.receiverUsername = some r)
    (ht : req.text = some text) (hs1 : s ≠ "") (hr1 : r ≠ "") (ht1 : jsTrim text ≠ "")
    (hf1 : env.faults (.userFindOne s) = false) (hf2 : env.faults (.userFindOne r) = false)
    (hf3 : env.faults .messageSave = false)
    (hf4 : env.faults (.messageFindById (nextId store.messages)) = false)
    (hfs : findUser store s = some sender) (hfr : findUser store r = some receiver) :
    ∀ srv : SocketModule,
      (MessageApi.handler env srv store req).response =
        some ⟨201, .sent "Message sent successfully"
          (some (populate
            (MessageApi.save store (MessageApi.newMessage env store sender receiver text))
            (MessageApi.newMessage env store sender receiver text)))⟩ ∧
      (MessageApi.handler env srv store req).store =
        MessageApi.save store (MessageApi.newMessage env store sender receiver text) := by
  intro srv
  rw [MessageApi.handler_post_ok env srv store req s r text sender receiver hdb hm hs hr ht
    hs1 hr1 ht1 hf1 hf2 hf3 hf4 hfs hfr]
  exact ⟨rfl, rfl⟩

/-- Witness of C8: the submit of `amy` to `bob` with the module uninitialised,
with nobody online, and with both online. -/
theorem post_result_independent_of_push_witness :
    (MessageApi.handler sampleEnv uninitModule sampleStore samplePost).response =
      (MessageApi.handler sampleEnv sampleModule sampleStore samplePost).response ∧
    (MessageApi.handler sampleEnv offlineModule sampleStore samplePost).response =
      (MessageApi.handler sampleEnv sampleModule sampleStore samplePost).response ∧
    (MessageApi.handler sampleEnv sampleModule sampleStore samplePost).response =
      some ⟨201, .sent "Message sent successfully"
        (some ⟨13, some ⟨1, "amy"⟩, some ⟨2, "bob"⟩, "hello", false, 100, 100⟩)⟩ :=
  have h := post_result_independent_of_push sampleEnv sampleStore samplePost "amy" "bob"
    " hello " ⟨1, "amy", false, none, none⟩ ⟨2, "bob", false, none, none⟩
    rfl rfl rfl rfl rfl (by decide) (by decide) (by decide) rfl rfl rfl rfl
    (by decide) (by decide)
  ⟨(h uninitModule).1.trans (h sampleModule).1.symm,
    (h offlineModule).1.trans (h sampleModule).1.symm,
    (h sampleModule).1.trans (by decide)⟩

/-! ## The seen flag -/

/-- The bulk update at one position. -/
theorem updateMany_getElem? (env : Env) (a b : Nat) (store : Store) (i : Nat) :
    (updateMany env a b store).messages[i]? =
      (store.messages[i]?).map (fun m => if unseenFrom a b m then setSeen env m else m) := by
  simp [updateMany, List.getElem?_map]

/-- The bulk update keeps a seen message as it is. -/
theorem updateMany_keeps_seen (env : Env) (a b : Nat) (store : Store) (i : Nat) (m : Message)
    (hget : store.messages[i]? = some m) (hseen : m.seen = true) :
    (updateMany env a b store).messages[i]? = some m := by
  simp [updateMany_getElem?, hget, unseenFrom, hseen]

/-- Saving a message keeps every stored message where it is. -/
theorem save_keeps (store : Store) (n : Message) (i : Nat) (m : Message)
    (hget : store.messages[i]? = some m) :
    (MessageApi.save store n).messages[i]? = some m := by
  have hi : i < store.messages.length := by
    by_contra hcon
    rw [List.getElem?_eq_none (Nat.le_of_not_lt hcon)] at hget
    cases hget
  simp [MessageApi.save, List.getElem?_append_left hi, hget]

/-- What the GET case does to the store: nothing, or one bulk update. -/
theorem MessageApi.get_store (env : Env) (store : Store) (req : MessageApi.Request) :
    (MessageApi.get env store req).store = store ∨
    ∃ a b, (MessageApi.get env store req).store = updateMany env a b store := by
  simp only [MessageApi.get, MessageApi.recent, MessageApi.history]
  repeat' split
  all_goals first
    | exact Or.inl rfl
    | exact Or.inr ⟨_, _, rfl⟩

/-- What the mark-seen handler does to the store: nothing, or one bulk update. -/
theorem MarkSeenApi.handler_store (env : Env) (srv : SocketModule) (store : Store)
    (req : MarkSeenApi.Request) :
    (MarkSeenApi.handler env srv store req).store = store ∨
    ∃ a b, (MarkSeenApi.handler env srv store req).store = updateMany env a b store := by
  simp only [MarkSeenApi.handler]
  repeat' split
  all_goals first
    | exact Or.inl rfl
    | exact Or.inr ⟨_, _, rfl⟩

/-- C5: a message that is stored with `seen = true` is, after any request to the
message handler (submit, pair history, recent partners, any other method) and
after any request to the mark-seen handler, stored at the same position and
unchanged, so still seen; this for every store, registry, request and pattern
of throwing store calls. -/
theorem seen_never_reverts (env : Env) (srv : SocketModule) (store : Store) (i : Nat)
    (m : Message) (hget : store.messages[i]? = some m) (hseen : m.seen = true) :
    (∀ req : MessageApi.Request,
      (MessageApi.handler env srv store req).store.messages[i]? = some m) ∧
    (∀ req : MarkSeenApi.Request,
      (MarkSeenApi.handler env srv store req).store.messages[i]? = some m) := by
  constructor
  · intro req
    cases hdb : env.dbFails
    swap
    · simpa [MessageApi.handler, hdb] using hget
    by_cases hm : req.method = "POST"
    · have hst : (MessageApi.handler env srv store req).store =
          (MessageApi.post env srv store req).store := by
        simp [MessageApi.handler, hdb, hm]
      rw [hst]
      rcases MessageApi.post_store env srv store req with h | ⟨text, sender, receiver, -, -, h⟩
      · rw [h]; exact hget
      · rw [h]; exact save_keeps store _ i m hget
    · by_cases hg : req.method = "GET"
      · have hst : (MessageApi.handler env srv store req).store =
            (MessageApi.get env store req).store := by
          simp [MessageApi.handler, hdb, hm, hg]
        rw [hst]
        rcases MessageApi.get_store env store req with h | ⟨a, b, h⟩
        · rw [h]; exact hget
        · rw [h]; exact updateMany_keeps_seen env a b store i m hget hseen
      · simpa [MessageApi.handler, hdb, hm, hg] using hget
  · intro req
    rcases MarkSeenApi.handler_store env srv store req with h | ⟨a, b, h⟩
    · rw [h]; exact hget
    · rw [h]; exact updateMany_keeps_seen env a b store i m hget hseen

/-- Witness of C5: the seen message at position 1 of the sample store survives
the pair-history fetch of `amy` with `bob` and `markSeen(amy, bob)`. -/
theorem seen_never_reverts_witness :
    (MessageApi.handler sampleEnv sampleModule sampleStore sampleHistory).store.messages[1]? =
      some ⟨11, 2, 1, "yo", true, 6, 7⟩ ∧
    (MarkSeenApi.handler sampleEnv sampleModule sampleStore sampleMarkSeen).store.messages[1]? =
      some ⟨11, 2, 1, "yo", true, 6, 7⟩ :=
  have h := seen_never_reverts sampleEnv sampleModule sampleStore 1 ⟨11, 2, 1, "yo", true, 6, 7⟩
    (by decide) rfl
  ⟨h.1 sampleHistory, h.2 sampleMarkSeen⟩

/-! ## Pair history -/

/-- The run of a pair-history fetch for resolvable users when no call throws. -/
theorem MessageApi.handler_history_ok (env : Env) (srv : SocketModule) (store : Store)
    (req : MessageApi.Request) (user1 user2 : String) (userA userB : User)
    (hdb : env.dbFails = false) (hm : req.method = "GET")
    (hrec : truthyOpt req.recent = false)
    (h1 : req.user1 = some user1) (h2 : req.user2 = some user2)
    (ht1 : user1 ≠ "") (ht2 : user2 ≠ "")
    (hf1 : env.faults (.userFindOne user1) = false)
    (hf2 : env.faults (.userFindOne user2) = false)
    (hf3 : env.faults .messageFind = false) (hf4 : env.faults .messageUpdateMany = false)
    (hA : findUser store user1 = some userA) (hB : findUser store user2 = some userB) :
    MessageApi.handler env srv store req =
      ⟨some ⟨200, .messages (findPair store userA._id userB._id)⟩,
        updateMany env userB._id userA._id store,
        [.dbConnect, .storeCall (.userFindOne user1), .storeCall (.userFindOne user2),
          .storeCall .messageFind, .storeCall .messageUpdateMany]⟩ := by
  simp [MessageApi.handler, MessageApi.get, MessageApi.history, hdb, hm, hrec, h1, h2, truthy,
    ht1, ht2, hf1, hf2, hf3, hf4, hA, hB]

/-- C10, counterexample: with a schema that stamps updates, the pair-history
fetch of `amy` with `bob` at time 100 sets `seen` on the unseen message of `bob`
to `amy` and also rewrites its `updatedAt` from 5 to 100: a field other than
`seen` changes. -/
theorem history_fetch_stamps_updatedAt :
    sampleStore.messages[0]? = some ⟨10, 2, 1, "hi", false, 5, 5⟩ ∧
    (MessageApi.handler sampleEnv sampleModule sampleStore sampleHistory).store.messages[0]? =
      some ⟨10, 2, 1, "hi", true, 5, 100⟩ := by
  decide

/-- C10, amended: a pair-history fetch of `user1` with `user2` (both resolvable,
no call throwing) answers 200, leaves the users and the number and order of
messages as they were, and at every position: a message with sender `user2`,
receiver `user1` and `seen = false` becomes seen with its id, sender, receiver,
text and `createdAt` unchanged, and its `updatedAt` is the time of the fetch
when the schema stamps updates and unchanged when it does not; every other
message, the unseen ones sent by `user1` to `user2` among them, is unchanged in
every field. -/
theorem history_marks_seen (env : Env) (srv : SocketModule) (store : Store)
    (req : MessageApi.Request) (user1 user2 : String) (userA userB : User)
    (hdb : env.dbFails = false) (hm : req.method = "GET")
    (hrec : truthyOpt req.recent = false)
    (h1 : req.user1 = some user1) (h2 : req.user2 = some user2)
    (ht1 : user1 ≠ "") (ht2 : user2 ≠ "")
    (hf1 : env.faults (.userFindOne user1) = false)
    (hf2 : env.faults (.userFindOne user2) = false)
    (hf3 : env.faults .messageFind = false) (hf4 : env.faults .messageUpdateMany = false)
    (hA : findUser store user1 = some userA) (hB : findUser store user2 = some userB) :
    (MessageApi.handler env srv store req).response =
      some ⟨200, .messages (findPair store userA._id userB._id)⟩ ∧
    (MessageApi.handler env srv store req).store.users = store.users ∧
    (MessageApi.handler env srv store req).store.messages.length = store.messages.length ∧
    ∀ (i : Nat) (m : Message), store.messages[i]? = some m →
      ((m.sender = userB._id ∧ m.receiver = userA._id ∧ m.seen = false) →
        ∃ m' : Message, (MessageApi.handler env srv store req).store.messages[i]? = some m' ∧
          m'.seen = true ∧ m'._id = m._id ∧ m'.sender = m.sender ∧
          m'.receiver = m.receiver ∧ m'.text = m.text ∧ m'.createdAt = m.createdAt ∧
          m'.updatedAt = (if env.timestamps = true then env.now else m.updatedAt)) ∧
      (¬(m.sender = userB._id ∧ m.receiver = userA._id ∧ m.seen = false) →
        (MessageApi.handler env srv store req).store.messages[i]? = some m) := by
  rw [MessageApi.handler_history_ok env srv store req user1 user2 userA userB hdb hm hrec h1 h2
    ht1 ht2 hf1 hf2 hf3 hf4 hA hB]
  refine ⟨rfl, rfl, by simp [updateMany], ?_⟩
  intro i m hget
  simp only [updateMany_getElem?, hget, Option.map_some']
  constructor
  · rintro ⟨hs, hr, hseen⟩
    have hmatch : unseenFrom userB._id userA._id m = true := by
      simp [unseenFrom, hs, hr, hseen]
    exact ⟨setSeen env m, by simp [hmatch], rfl, rfl, rfl, rfl, rfl, rfl, rfl⟩
  · intro hnot
    have hmatch : unseenFrom userB._id userA._id m = false := by
      by_contra hcon
      apply hnot
      simp only [unseenFrom, Bool.not_eq_false, Bool.and_eq_true, beq_iff_eq,
        Bool.not_eq_true'] at hcon
      exact ⟨hcon.1.1, hcon.1.2, hcon.2⟩
    simp [hmatch]

/-- Witness of C10 amended: `amy` fetches her history with `bob` at time 100,
updates stamped: the unseen message of `bob` to `amy` at position 0 becomes seen
with `updatedAt` 100, the unseen message of `amy` to `bob` at position 2 stays
as it was. -/
theorem history_marks_seen_witness :
    (∃ m' : Message,
      (MessageApi.handler sampleEnv sampleModule sampleStore sampleHistory).store.messages[0]?
        = some m' ∧ m'.seen = true ∧ m'._id = 10 ∧ m'.sender = 2 ∧ m'.receiver = 1 ∧
        m'.text = "hi" ∧ m'.createdAt = 5 ∧
        m'.updatedAt = (if sampleEnv.timestamps = true then sampleEnv.now else 5)) ∧
    (MessageApi.handler sampleEnv sampleModule sampleStore sampleHistory).store.messages[2]? =
      some ⟨12, 1, 2, "hey", false, 8, 8⟩ :=
  have h := (history_marks_seen sampleEnv sampleModule sampleStore sampleHistory "amy" "bob"
    ⟨1, "amy", false, none, none⟩ ⟨2, "bob", false, none, none⟩
    rfl rfl rfl rfl rfl (by decide) (by decide) rfl rfl rfl rfl (by decide) (by decide)).2.2.2
  ⟨(h 0 ⟨10, 2, 1, "hi", false, 5, 5⟩ (by decide)).1 ⟨rfl, rfl, rfl⟩,
    (h 2 ⟨12, 1, 2, "hey", false, 8, 8⟩ (by decide)).2 (by decide)⟩

/-! ## Presence broadcast -/

/-- The whole result of `connection` for an accepted socket. -/
theorem connection_accepted (env : Env) (srv : SocketModule) (store : Store)
    (sid username : String) (hu : username ≠ "") :
    connection env srv store ⟨sid, some username⟩ =
      ({ srv with
          usernameToSocketId := srv.usernameToSocketId.set username sid
          socketIdToUsername := srv.socketIdToUsername.set sid username },
        (if env.faults (.userFindOneAndUpdate username) then store
          else findOneAndUpdate store username
            (fun u => { u with online := true, socketId := some sid })),
        [.storeCall (.userFindOneAndUpdate username),
          .broadcast sid "presence:online" (.presenceOnline username sid)]) := by
  simp [connection, truthy, hu]

/-- The whole result of `disconnect` for a socket id the reverse map knows. -/
theorem disconnect_registered (env : Env) (srv : SocketModule) (store : Store)
    (sid uname : String) (hget : srv.socketIdToUsername.get sid = some uname)
    (hu : uname ≠ "") :
    disconnect env srv store sid =
      ({ srv with
          usernameToSocketId := srv.usernameToSocketId.delete uname
          socketIdToUsername := srv.socketIdToUsername.delete sid },
        (if env.faults (.userFindOneAndUpdate uname) then store
          else findOneAndUpdate store uname
            (fun u => { u with online := false, socketId := none, lastSeen := some env.now })),
        [.storeCall (.userFindOneAndUpdate uname),
          .emitAll "presence:offline" (.presenceOffline uname)]) := by
  simp [disconnect, hget, truthy, hu]

/-- The two handler bodies, each run as a whole: for a connect with a username
and for the `disconnect` handler of a socket id the reverse map knows, whatever
store calls throw, the events are exactly the presence event: `presence:online`
with the username and the socket id, delivered to every connection but the
connecting one, resp. `presence:offline` with the username, delivered to every
connection. A throwing store update leaves the store as it was. -/
theorem presence_emitted_despite_store_failure (env : Env) (srv : SocketModule)
    (store : Store) (sid : String) :
    (∀ username, username ≠ "" →
      events (connection env srv store ⟨sid, some username⟩).2.2 =
        [.broadcast sid "presence:online" (.presenceOnline username sid)] ∧
      (∀ c, (Effect.broadcast sid "presence:online"
        (.presenceOnline username sid)).deliveredTo c = true ↔ c ≠ sid) ∧
      (env.faults (.userFindOneAndUpdate username) = true →
        (connection env srv store ⟨sid, some username⟩).2.1 = store)) ∧
    (∀ uname, srv.socketIdToUsername.get sid = some uname → uname ≠ "" →
      events (disconnect env srv store sid).2.2 =
        [.emitAll "presence:offline" (.presenceOffline uname)] ∧
      (∀ c, (Effect.emitAll "presence:offline" (.presenceOffline uname)).deliveredTo c = true) ∧
      (env.faults (.userFindOneAndUpdate uname) = true →
        (disconnect env srv store sid).2.1 = store)) := by
  constructor
  · intro username hu
    rw [connection_accepted env srv store sid username hu]
    refine ⟨by simp [events, Effect.isEvent], ?_, ?_⟩
    · intro c
      simp only [Effect.deliveredTo, Bool.not_eq_true', beq_eq_false_iff_ne, ne_eq]
      exact ⟨fun h hc => h hc.symm, fun h hc => h hc.symm⟩
    · intro hf
      simp [hf]
  · intro uname hget hu
    rw [disconnect_registered env srv store sid uname hget hu]
    refine ⟨by simp [events, Effect.isEvent], ?_, ?_⟩
    · intro c
      rfl
    · intro hf
      simp [hf]

/-- The connection handler run as a whole is its part before the `await`
followed by its part after it. -/
theorem connection_eq_begin_resume (env : Env) (srv : SocketModule) (store : Store)
    (listeners : List String) (socket : Socket) :
    connection env srv store socket =
      ((connectionBegin srv socket).1, (connectionResume env store listeners socket).1,
        (connectionBegin srv socket).2 ++ (connectionResume env store listeners socket).2.2) := by
  unfold connection connectionBegin connectionResume
  cases socket.username with
  | none => rfl
  | some u =>
    by_cases hu : truthy u = true
    · simp [hu]
    · simp [hu]

/-- C13, the code at the failing input: `amy` connects on `s1` and the store
update throws. Before the `await` the registry holds `s1` for `amy`. The socket
disconnects while the handler still awaits: its `disconnect` listener is not
attached yet, so nothing runs, no `presence:offline` is emitted and the registry
keeps `s1`. When the `await` settles the handler broadcasts `presence:online`
for the socket that is gone. Had the same disconnect come after the listener
was attached, `presence:offline` would have been emitted. -/
theorem disconnect_during_connect_await_is_lost :
    (connectionBegin offlineModule ⟨"s1", some "amy"⟩).1.socketIdToUsername.get "s1" =
      some "amy" ∧
    disconnectEvent failingEnv (connectionBegin offlineModule ⟨"s1", some "amy"⟩).1 sampleStore
        [] "s1" =
      ((connectionBegin offlineModule ⟨"s1", some "amy"⟩).1, sampleStore, []) ∧
    (connectionResume failingEnv sampleStore [] ⟨"s1", some "amy"⟩).2.2 =
      [.broadcast "s1" "presence:online" (.presenceOnline "amy" "s1")] ∧
    events ((connectionBegin offlineModule ⟨"s1", some "amy"⟩).2 ++
        (disconnectEvent failingEnv (connectionBegin offlineModule ⟨"s1", some "amy"⟩).1
          sampleStore [] "s1").2.2 ++
        (connectionResume failingEnv sampleStore [] ⟨"s1", some "amy"⟩).2.2) =
      [.broadcast "s1" "presence:online" (.presenceOnline "amy" "s1")] ∧
    getSocketIdByUsername
        (disconnectEvent failingEnv (connectionBegin offlineModule ⟨"s1", some "amy"⟩).1
          sampleStore [] "s1").1 "amy" = some "s1" ∧
    events (disconnectEvent failingEnv (connectionBegin offlineModule ⟨"s1", some "amy"⟩).1
        sampleStore (connectionResume failingEnv sampleStore [] ⟨"s1", some "amy"⟩).2.1
        "s1").2.2 =
      [.emitAll "presence:offline" (.presenceOffline "amy")] := by
  decide

/-- C14, counterexample: when `amy` connects on `s1`, and when `s1` disconnects,
the trace has the store update first and the presence event after it. -/
theorem presence_emit_after_store_update :
    (connection sampleEnv offlineModule sampleStore ⟨"s1", some "amy"⟩).2.2 =
      [.storeCall (.userFindOneAndUpdate "amy"),
        .broadcast "s1" "presence:online" (.presenceOnline "amy" "s1")] ∧
    eventFirst (connection sampleEnv offlineModule sampleStore ⟨"s1", some "amy"⟩).2.2 = false ∧
    (disconnect sampleEnv sampleModule sampleStore "s1").2.2 =
      [.storeCall (.userFindOneAndUpdate "amy"),
        .emitAll "presence:offline" (.presenceOffline "amy")] ∧
    eventFirst (disconnect sampleEnv sampleModule sampleStore "s1").2.2 = false := by
  decide

/-- C14, amended: in the connect handler of a socket with a username and in the
disconnect handler of a registered connection the ordered trace is the awaited
store update of the user's online flag followed by the presence event: the emit
comes after the store call, never before it. -/
theorem store_update_precedes_presence_emit (env : Env) (srv : SocketModule) (store : Store)
    (sid : String) :
    (∀ username, username ≠ "" →
      (connection env srv store ⟨sid, some username⟩).2.2 =
        [.storeCall (.userFindOneAndUpdate username),
          .broadcast sid "presence:online" (.presenceOnline username sid)] ∧
      eventFirst (connection env srv store ⟨sid, some username⟩).2.2 = false) ∧
    (∀ uname, srv.socketIdToUsername.get sid = some uname → uname ≠ "" →
      (disconnect env srv store sid).2.2 =
        [.storeCall (.userFindOneAndUpdate uname),
          .emitAll "presence:offline" (.presenceOffline uname)] ∧
      eventFirst (disconnect env srv store sid).2.2 = false) := by
  constructor
  · intro username hu
    rw [connection_accepted env srv store sid username hu]
    exact ⟨rfl, by simp [eventFirst, List.findIdx_cons, Effect.isEvent, Effect.isStoreCall]⟩
  · intro uname hget hu
    rw [disconnect_registered env srv store sid uname hget hu]
    exact ⟨rfl, by simp [eventFirst, List.findIdx_cons, Effect.isEvent, Effect.isStoreCall]⟩

/-- Witness of C14 amended: `bob` connects on `s7`; `s2`, registered for `bob`,
disconnects. -/
theorem store_update_precedes_presence_emit_witness :
    (connection sampleEnv sampleModule sampleStore ⟨"s7", some "bob"⟩).2.2 =
      [.storeCall (.userFindOneAndUpdate "bob"),
        .broadcast "s7" "presence:online" (.presenceOnline "bob" "s7")] ∧
    (disconnect sampleEnv sampleModule sampleStore "s2").2.2 =
      [.storeCall (.userFindOneAndUpdate "bob"),
        .emitAll "presence:offline" (.presenceOffline "bob")] :=
  ⟨((store_update_precedes_presence_emit sampleEnv sampleModule sampleStore "s7").1 "bob"
      (by decide)).1,
    ((store_update_precedes_presence_emit sampleEnv sampleModule sampleStore "s2").2 "bob"
      (by decide) (by decide)).1⟩

/-! ## The client's subscriptions -/

/-- C15, the code at the failing input: the hook subscribes to `typing:start`
and `typing:stop`, which are not the transport's own events and which the
server never emits (it listens to them); it subscribes to neither
`typing:started` nor `typing:stopped`, which the server does emit. So not every
subscribed name is a server-to-client event. -/
theorem useSocket_subscribes_to_client_events :
    ("typing:start" ∈ useSocketSubscriptions ∧ "typing:start" ∉ transportEvents ∧
      "typing:start" ∉ serverEmits ∧ "typing:start" ∈ serverListens) ∧
    ("typing:stop" ∈ useSocketSubscriptions ∧ "typing:stop" ∉ transportEvents ∧
      "typing:stop" ∉ serverEmits ∧ "typing:stop" ∈ serverListens) ∧
    ("typing:started" ∈ serverEmits ∧ "typing:started" ∉ useSocketSubscriptions) ∧
    ("typing:stopped" ∈ serverEmits ∧ "typing:stopped" ∉ useSocketSubscriptions) ∧
    ¬ (∀ e ∈ useSocketSubscriptions, e ∉ transportEvents → e ∈ serverEmits) := by
  decide

/-- The typing handlers of the server emit under the names of `serverEmits`,
which are not among the subscriptions of the hook. -/
theorem typing_events_not_subscribed (srv : SocketModule) (f : String) (ev : TypingEvent) :
    (∀ e ∈ (typingStart srv f ev).2, e.eventName = some "typing:started") ∧
    (∀ e ∈ (typingStop srv f ev).2, e.eventName = some "typing:stopped") := by
  simp only [typingStart, typingStop]
  constructor <;> split <;> simp [Effect.eventName]

/-! ## Consistency of the two presence maps -/

/-- A connect without a username changes nothing in the module. -/
theorem connection_rejected (env : Env) (srv : SocketModule) (store : Store) (socket : Socket)
    (h : socket.accepted = false) : (connection env srv store socket).1 = srv := by
  unfold connection
  cases hu : socket.username with
  | none => rfl
  | some u =>
    have : truthy u = false := by simpa [Socket.accepted, truthyOpt, hu] using h
    simp [this]

/-- A disconnect either changes nothing or deletes the username found under
the socket id and the entry of the socket id. -/
theorem disconnect_cases (env : Env) (srv : SocketModule) (store : Store) (sid : String) :
    (disconnect env srv store sid).1 = srv ∨
    ∃ uname, srv.socketIdToUsername.get sid = some uname ∧
      (disconnect env srv store sid).1 =
        { srv with
          usernameToSocketId := srv.usernameToSocketId.delete uname
          socketIdToUsername := srv.socketIdToUsername.delete sid } := by
  cases hget : srv.socketIdToUsername.get sid with
  | none => exact Or.inl (by simp [disconnect, hget])
  | some uname =>
    by_cases hu : uname = ""
    · exact Or.inl (by simp [disconnect, hget, truthy, hu])
    · exact Or.inr ⟨uname, rfl, by rw [disconnect_registered env srv store sid uname hget hu]⟩

/-- The invariant of a run: every entry of `usernameToSocketId` has its mirror
entry in `socketIdToUsername`, and its handle is among the handles `used`. -/
theorem runSteps_invariant (steps : List RegistryStep) :
    ∀ (srv : SocketModule) (used : List String),
      (∀ u s, srv.usernameToSocketId.get u = some s →
        srv.socketIdToUsername.get s = some u ∧ s ∈ used) →
      (connectIds steps).Nodup → (∀ s ∈ connectIds steps, s ∉ used) →
      ∀ u s, (runSteps srv steps).usernameToSocketId.get u = some s →
        (runSteps srv steps).socketIdToUsername.get s = some u := by
  induction steps with
  | nil =>
    intro srv used hinv _ _ u s h
    exact (hinv u s h).1
  | cons step rest ih =>
    intro srv used hinv hnd hfresh
    cases step with
    | connect env store socket =>
      simp only [connectIds, List.nodup_cons, List.mem_cons, forall_eq_or_imp] at hnd hfresh
      have hrun : runSteps srv (.connect env store socket :: rest) =
          runSteps (connection env srv store socket).1 rest := rfl
      rw [hrun]
      apply ih _ (socket.id :: used) _ hnd.2
      · intro s hs hmem
        rcases List.mem_cons.mp hmem with h | h
        · exact hnd.1 (h ▸ hs)
        · exact hfresh.2 s hs h
      · cases hacc : socket.accepted with
        | false =>
          rw [connection_rejected env srv store socket hacc]
          intro u s h
          exact ⟨(hinv u s h).1, List.mem_cons_of_mem _ (hinv u s h).2⟩
        | true =>
          obtain ⟨sid, uopt⟩ := socket
          cases uopt with
          | none => simp [Socket.accepted, truthyOpt] at hacc
          | some u0 =>
            have hu0 : u0 ≠ "" := by simpa [Socket.accepted, truthyOpt, truthy] using hacc
            rw [connection_accepted env srv store sid u0 hu0]
            intro u s h
            simp only at h ⊢
            by_cases hu : u = u0
            · subst hu
              rw [JSMap.get_set_self] at h
              cases h
              exact ⟨JSMap.get_set_self _ _ _, List.mem_cons_self _ _⟩
            · rw [JSMap.get_set_of_ne _ _ _ _ hu] at h
              have hold := hinv u s h
              have hs : s ≠ sid := fun hEq => hfresh.1 (hEq ▸ hold.2)
              exact ⟨by rw [JSMap.get_set_of_ne _ _ _ _ hs]; exact hold.1,
                List.mem_cons_of_mem _ hold.2⟩
    | disconnect env store sid =>
      simp only [connectIds] at hnd hfresh
      have hrun : runSteps srv (.disconnect env store sid :: rest) =
          runSteps (disconnect env srv store sid).1 rest := rfl
      rw [hrun]
      apply ih _ used _ hnd hfresh
      rcases disconnect_cases env srv store sid with h | ⟨uname, hget, h⟩
      · rw [h]; exact hinv
      · rw [h]
        intro u s hus
        simp only at hus ⊢
        have hu : u ≠ uname := by
          intro hEq
          rw [hEq, JSMap.get_delete_self] at hus
          cases hus
        rw [JSMap.get_delete_of_ne _ _ _ hu] at hus
        have hold := hinv u s hus
        have hs : s ≠ sid := by
          intro hEq
          rw [hEq, hget] at hold
          exact hu (Option.some.inj hold.1).symm
        exact ⟨by rw [JSMap.get_delete_of_ne _ _ _ hs]; exact hold.1, hold.2⟩

/-- C16: in every state reached from the empty registry by connect steps, each
with a handle no earlier connect step used, and disconnect steps, whenever
`usernameToSocketId` maps `u` to `s`, `socketIdToUsername` maps `s` to `u`. -/
theorem registry_maps_consistent (io : Bool) (steps : List RegistryStep)
    (hfresh : (connectIds steps).Nodup) :
    ∀ u s, (runSteps ⟨io, [], []⟩ steps).usernameToSocketId.get u = some s →
      (runSteps ⟨io, [], []⟩ steps).socketIdToUsername.get s = some u :=
  runSteps_invariant steps ⟨io, [], []⟩ []
    (fun u s h => by simp [JSMap.get] at h) hfresh (fun _ _ h => by cases h)

/-- Witness of C16: the sample run ends with `bob` on `s2` and nothing for
`amy`; the entry of `bob` has its mirror. -/
theorem registry_maps_consistent_witness :
    (connectIds sampleRun).Nodup ∧
    (runSteps ⟨true, [], []⟩ sampleRun).usernameToSocketId.get "bob" = some "s2" ∧
    (runSteps ⟨true, [], []⟩ sampleRun).socketIdToUsername.get "s2" = some "bob" :=
  ⟨by decide, by decide,
    registry_maps_consistent true sampleRun (by decide) "bob" "s2" (by decide)⟩

/-! ## The user list -/

/-- C12, the code at the failing input: nobody is connected and a user named
`constructor` is stored; the registry holds no handle for that name, yet the
record of the list has `online = true` and as `socketId` the member the
snapshot object inherits from `Object.prototype`. -/
theorem users_inherited_property_online :
    getSocketIdByUsername offlineModule "constructor" = none ∧
    UsersApi.get sampleEnv (fun _ _ => true) offlineModule protoStore none =
      ⟨200, .users
        [⟨1, "amy", false, .null, none⟩, ⟨2, "bob", false, .null, none⟩,
          ⟨3, "constructor", true, .object "Object.prototype.constructor", none⟩],
        [.storeCall .userFind]⟩ := by
  decide

/-- A key that is not in the map reads as `undefined`. -/
theorem JSMap.get_eq_none_of_not_mem (m : JSMap) (k : String)
    (h : k ∉ m.map Prod.fst) : m.get k = none := by
  induction m with
  | nil => rfl
  | cons e m ih =>
    obtain ⟨k', v'⟩ := e
    simp only [List.map_cons, List.mem_cons, not_or] at h
    simp [JSMap.get, Ne.symm h.1, ih h.2]

/-- Copying a map with distinct keys into an object: an own property per key,
except `__proto__`. -/
theorem snapshot_fold_get (m : JSMap) (k : String) (hk : k ≠ "__proto__") :
    ∀ acc : JSMap, (m.map Prod.fst).Nodup →
      JSMap.get (m.foldl (fun snapshot e =>
        if e.1 = "__proto__" then snapshot else JSMap.set snapshot e.1 e.2) acc) k =
      (match JSMap.get m k with
        | some v => some v
        | none => JSMap.get acc k) := by
  induction m with
  | nil => intro acc _; rfl
  | cons e m ih =>
    obtain ⟨k', v'⟩ := e
    intro acc hnd
    simp only [List.map_cons, List.nodup_cons] at hnd
    rw [List.foldl_cons, ih _ hnd.2]
    by_cases h : k' = k
    · subst h
      simp [JSMap.get, JSMap.get_eq_none_of_not_mem m k' hnd.1, hk, JSMap.get_set_self]
    · simp only [JSMap.get, h, if_false]
      cases JSMap.get m k with
      | some v => rfl
      | none =>
        simp only []
        split
        · rfl
        · exact JSMap.get_set_of_ne _ _ _ _ (Ne.symm h)

/-- Off the names inherited from `Object.prototype` the user list reports the
registry: for a registry with distinct keys and a record whose username is no
member of `Object.prototype`, `online` says whether the registry holds a handle
for the username, and `socketId` is that handle, `null` when there is none. -/
theorem users_merge_ordinary (srv : SocketModule) (u : User)
    (hnd : (srv.usernameToSocketId.map Prod.fst).Nodup)
    (hname : u.username ∉ objectPrototype) :
    (UsersApi.merge (getPresenceSnapshot srv) u).online =
      (getSocketIdByUsername srv u.username).isSome ∧
    (UsersApi.merge (getPresenceSnapshot srv) u).socketId =
      (match getSocketIdByUsername srv u.username with
        | some h => .string h
        | none => .null) := by
  have hk : u.username ≠ "__proto__" := by
    intro h
    apply hname
    rw [h]
    decide
  have hget : JSMap.get (getPresenceSnapshot srv) u.username =
      JSMap.get srv.usernameToSocketId u.username := by
    unfold getPresenceSnapshot
    rw [snapshot_fold_get _ _ hk [] hnd]
    cases JSMap.get srv.usernameToSocketId u.username <;> rfl
  simp only [UsersApi.merge, getProperty, hget, getSocketIdByUsername]
  cases hg : JSMap.get srv.usernameToSocketId u.username with
  | none => simp [hname, JSValue.truthy]
  | some v =>
    by_cases hv : truthy v = true
    · simp [JSValue.truthy, hv]
    · simp [JSValue.truthy, hv]

/-! ## Recent partners -/

/-- `User.findOne` gives a stored user with the username asked for. -/
theorem findUser_some (store : Store) (n : String) (u : User)
    (h : findUser store n = some u) : u ∈ store.users ∧ u.username = n := by
  refine ⟨List.mem_of_find?_eq_some h, ?_⟩
  have := List.find?_some h
  simpa using this

/-- In a well-formed store `User.findOne` by the username of a stored user
gives that user. -/
theorem findUser_of_mem (store : Store) (hwf : store.WellFormed) (u : User)
    (hu : u ∈ store.users) : findUser store u.username = some u := by
  cases h : findUser store u.username with
  | none =>
    have := (List.find?_eq_none.mp h) u hu
    simp at this
  | some v =>
    obtain ⟨hv, hn⟩ := findUser_some store _ v h
    rw [hwf.2.1 v hv u hu hn]

/-- In a well-formed store a reference to a stored user resolves to that user. -/
theorem findUserById_of_mem (store : Store) (hwf : store.WellFormed) (u : User)
    (hu : u ∈ store.users) : findUserById store u._id = some u := by
  cases h : findUserById store u._id with
  | none =>
    have := (List.find?_eq_none.mp h) u hu
    simp at this
  | some v =>
    have hv : v ∈ store.users := List.mem_of_find?_eq_some h
    have hid : v._id = u._id := by
      have := List.find?_some h
      simpa using this
    rw [hwf.1 v hv u hu hid]

/-- In a well-formed store the other party of a message of `user`, as the loop
computes it from the populated message, is the stored user with id `otherId`. -/
theorem partnerOf_populate (store : Store) (hwf : store.WellFormed) (user1 : String)
    (user : User) (hu : findUser store user1 = some user) (m : Message)
    (hm : m ∈ store.messages) :
    ∃ p ∈ store.users, p._id = otherId user._id m ∧
      findUserById store (otherId user._id m) = some p ∧
      partnerOf user1 (populate store m) = some ⟨p._id, p.username⟩ := by
  obtain ⟨huM, huN⟩ := findUser_some store user1 user hu
  obtain ⟨⟨su, hsu, hsid⟩, ⟨ru, hru, hrid⟩⟩ := hwf.2.2 m hm
  have hfs : findUserById store m.sender = some su := by
    rw [← hsid]; exact findUserById_of_mem store hwf su hsu
  have hfr : findUserById store m.receiver = some ru := by
    rw [← hrid]; exact findUserById_of_mem store hwf ru hru
  by_cases hs : m.sender = user._id
  · have hsu_eq : su = user := hwf.1 su hsu user huM (hsid.trans hs)
    refine ⟨ru, hru, ?_, ?_, ?_⟩
    · simp [otherId, hs, hrid]
    · simp [otherId, hs, hfr]
    · simp [partnerOf, populate, populateRef, hfs, hfr, hsu_eq, huN]
  · have hne : su.username ≠ user1 := by
      intro hEq
      apply hs
      have : su = user := hwf.2.1 su hsu user huM (hEq.trans huN.symm)
      rw [← hsid, this]
    refine ⟨su, hsu, ?_, ?_, ?_⟩
    · simp [otherId, hs, hsid]
    · simp [otherId, hs, hfs]
    · simp [partnerOf, populate, populateRef, hfs, hfr, hne]

/-- One round of the loop of `collectPartners`, through `partnerOf`. -/
theorem collectPartners_cons (user1 : String) (msg : Populated) (rest : List Populated)
    (partners : List (String × UserRef)) :
    collectPartners user1 (msg :: rest) partners =
      (match partnerOf user1 msg with
        | none => none
        | some partner =>
          if partners.any (fun e => e.1 == partner.username) then
            collectPartners user1 rest partners
          else collectPartners user1 rest (partners ++ [(partner.username, partner)])) := by
  simp only [collectPartners, partnerOf]
  cases msg.sender with
  | none => rfl
  | some s => rfl

/-- In a well-formed store the loop of `collectPartners` does not throw and
yields the keys of `partnerUsers`. -/
theorem collectPartners_eq (store : Store) (hwf : store.WellFormed) (user1 : String)
    (user : User) (hu : findUser store user1 = some user) (msgs : List Message) :
    ∀ acc : List User, (∀ m ∈ msgs, m ∈ store.messages) →
      collectPartners user1 (msgs.map (populate store)) (acc.map partnerKey) =
        some ((partnerUsers store user._id msgs acc).map partnerKey) := by
  induction msgs with
  | nil => intro acc _; rfl
  | cons m rest ih =>
    intro acc hsub
    obtain ⟨p, _, _, hfind, hpart⟩ :=
      partnerOf_populate store hwf user1 user hu m (hsub m (List.mem_cons_self _ _))
    have hrest : ∀ x ∈ rest, x ∈ store.messages :=
      fun x hx => hsub x (List.mem_cons_of_mem _ hx)
    have hany : (acc.map partnerKey).any (fun e => e.1 == p.username) =
        acc.any (fun q => q.username == p.username) := by
      induction acc with
      | nil => rfl
      | cons a l ihl => simp only [List.map_cons, List.any_cons, ihl, partnerKey]
    rw [List.map_cons, collectPartners_cons, hpart]
    simp only [partnerUsers, hfind, hany]
    by_cases hc : acc.any (fun q => q.username == p.username) = true
    · simp only [hc, if_true]
      exact ih acc hrest
    · simp only [hc, if_false]
      have := ih (acc ++ [p]) hrest
      simpa [partnerKey] using this

/-- Among stored users of a well-formed store the username test of the loop is
membership. -/
theorem any_username_iff (store : Store) (hwf : store.WellFormed) (acc : List User)
    (hacc : ∀ q ∈ acc, q ∈ store.users) (p : User) (hp : p ∈ store.users) :
    acc.any (fun q => q.username == p.username) = true ↔ p ∈ acc := by
  simp only [List.any_eq_true, beq_iff_eq]
  constructor
  · rintro ⟨q, hq, hn⟩
    rw [← hwf.2.1 q (hacc q hq) p hp hn]
    exact hq
  · intro h
    exact ⟨p, h, rfl⟩

/-- The partners are stored users. -/
theorem partnerUsers_subset (store : Store) (userId : Nat) (msgs : List Message) :
    ∀ acc : List User, (∀ q ∈ acc, q ∈ store.users) →
      ∀ q ∈ partnerUsers store userId msgs acc, q ∈ store.users := by
  induction msgs with
  | nil => intro acc h; exact h
  | cons m rest ih =>
    intro acc hacc
    simp only [partnerUsers]
    cases hf : findUserById store (otherId userId m) with
    | none => exact hacc
    | some p =>
      simp only []
      split
      · exact ih acc hacc
      · apply ih
        intro q hq
        rcases List.mem_append.mp hq with h | h
        · exact hacc q h
        · rw [List.mem_singleton] at h
          rw [h]
          exact List.mem_of_find?_eq_some hf

/-- No username occurs twice among the partners. -/
theorem partnerUsers_nodup (store : Store) (userId : Nat) (msgs : List Message) :
    ∀ acc : List User, (acc.map (fun q => q.username)).Nodup →
      ((partnerUsers store userId msgs acc).map (fun q => q.username)).Nodup := by
  induction msgs with
  | nil => intro acc h; exact h
  | cons m rest ih =>
    intro acc hacc
    simp only [partnerUsers]
    cases hf : findUserById store (otherId userId m) with
    | none => exact hacc
    | some p =>
      simp only []
      split
      · exact ih acc hacc
      · rename_i hany
        apply ih
        rw [List.map_append, List.nodup_append]
        refine ⟨hacc, by simp, ?_⟩
        intro n hn1 hn2
        simp only [List.map_cons, List.map_nil, List.mem_singleton] at hn2
        apply hany
        obtain ⟨q, hq, hqn⟩ := List.mem_map.mp hn1
        simp only [List.any_eq_true, beq_iff_eq]
        exact ⟨q, hq, hqn.trans hn2⟩

/-- A stored user is among the partners exactly when it was among the
accumulated ones or is the other party of one of the messages. -/
theorem partnerUsers_mem (store : Store) (hwf : store.WellFormed) (userId : Nat)
    (msgs : List Message) :
    ∀ acc : List User, (∀ q ∈ acc, q ∈ store.users) →
      (∀ m ∈ msgs, ∃ p ∈ store.users, p._id = otherId userId m) →
      ∀ p ∈ store.users, (p ∈ partnerUsers store userId msgs acc ↔
        p ∈ acc ∨ ∃ m ∈ msgs, otherId userId m = p._id) := by
  induction msgs with
  | nil =>
    intro acc _ _ p _
    simp [partnerUsers]
  | cons m rest ih =>
    intro acc hacc hres p hp
    obtain ⟨p0, hp0, hid0⟩ := hres m (List.mem_cons_self _ _)
    have hf : findUserById store (otherId userId m) = some p0 := by
      rw [← hid0]; exact findUserById_of_mem store hwf p0 hp0
    have hrest : ∀ x ∈ rest, ∃ p ∈ store.users, p._id = otherId userId x :=
      fun x hx => hres x (List.mem_cons_of_mem _ hx)
    have hsame : otherId userId m = p._id ↔ p = p0 := by
      constructor
      · intro h
        exact hwf.1 p hp p0 hp0 (h.symm.trans hid0.symm)
      · intro h
        rw [h, hid0]
    simp only [partnerUsers, hf, List.mem_cons, exists_eq_or_imp, hsame]
    by_cases hany : acc.any (fun q => q.username == p0.username) = true
    · have hin : p0 ∈ acc := (any_username_iff store hwf acc hacc p0 hp0).mp hany
      simp only [hany, if_true]
      rw [ih acc hacc hrest p hp]
      constructor
      · rintro (h | h)
        · exact Or.inl h
        · exact Or.inr (Or.inr h)
      · rintro (h | h | h)
        · exact Or.inl h
        · exact Or.inl (h ▸ hin)
        · exact Or.inr h
    · simp only [hany, Bool.false_eq_true, if_false]
      have hacc2 : ∀ q ∈ acc ++ [p0], q ∈ store.users := by
        intro q hq
        rcases List.mem_append.mp hq with h | h
        · exact hacc q h
        · rw [List.mem_singleton] at h
          rw [h]; exact hp0
      rw [ih (acc ++ [p0]) hacc2 hrest p hp]
      simp only [List.mem_append, List.mem_singleton]
      constructor
      · rintro ((h | h) | h)
        · exact Or.inl h
        · exact Or.inr (Or.inl h)
        · exact Or.inr (Or.inr h)
      · rintro (h | h | h)
        · exact Or.inl (Or.inl h)
        · exact Or.inl (Or.inr h)
        · exact Or.inr h

/-- The order of the partners. `f` is a rank of users such that every message
is ranked no later than its other party, and a user none of whose messages has
been met yet is ranked no later than the bound of the messages to come. Then
over messages in descending order the partners come out in descending rank. -/
theorem partnerUsers_pairwise (store : Store) (userId : Nat) (f : User → Nat)
    (msgs : List Message) :
    ∀ acc : List User,
      msgs.Pairwise (fun a b => b.updatedAt ≤ a.updatedAt) →
      (∀ m ∈ msgs, ∀ p, findUserById store (otherId userId m) = some p → m.updatedAt ≤ f p) →
      (∀ p ∈ store.users, (∀ q ∈ acc, q.username ≠ p.username) → ∀ B,
        (∀ m ∈ msgs, findUserById store (otherId userId m) = some p → m.updatedAt ≤ B) →
        f p ≤ B) →
      acc.Pairwise (fun a b => f b ≤ f a) →
      (∀ a ∈ acc, ∀ m ∈ msgs, m.updatedAt ≤ f a) →
      (partnerUsers store userId msgs acc).Pairwise (fun a b => f b ≤ f a) := by
  induction msgs with
  | nil => intro acc _ _ _ h _; exact h
  | cons m rest ih =>
    intro acc hsorted hub hlb hpw hdom
    rw [List.pairwise_cons] at hsorted
    have hub' : ∀ x ∈ rest, ∀ p, findUserById store (otherId userId x) = some p →
        x.updatedAt ≤ f p := fun x hx => hub x (List.mem_cons_of_mem _ hx)
    have hdom' : ∀ a ∈ acc, ∀ x ∈ rest, x.updatedAt ≤ f a :=
      fun a ha x hx => hdom a ha x (List.mem_cons_of_mem _ hx)
    simp only [partnerUsers]
    cases hf : findUserById store (otherId userId m) with
    | none => exact hpw
    | some p0 =>
      simp only []
      by_cases hany : acc.any (fun q => q.username == p0.username) = true
      · simp only [hany, if_true]
        apply ih acc hsorted.2 hub' _ hpw hdom'
        intro p hpu hp B hB
        apply hlb p hpu hp B
        intro x hx hxp
        rcases List.mem_cons.mp hx with h | h
        · exfalso
          rw [h, hf] at hxp
          cases hxp
          simp only [List.any_eq_true, beq_iff_eq] at hany
          obtain ⟨q, hq, hqn⟩ := hany
          exact hp q hq hqn
        · exact hB x h hxp
      · simp only [hany, Bool.false_eq_true, if_false]
        have hnot : ∀ q ∈ acc, q.username ≠ p0.username := by
          intro q hq hqn
          apply hany
          simp only [List.any_eq_true, beq_iff_eq]
          exact ⟨q, hq, hqn⟩
        apply ih (acc ++ [p0]) hsorted.2 hub'
        · intro p hpu hp B hB
          have hpne : p0.username ≠ p.username :=
            hp p0 (List.mem_append.mpr (Or.inr (List.mem_singleton.mpr rfl)))
          apply hlb p hpu (fun q hq => hp q (List.mem_append.mpr (Or.inl hq))) B
          intro x hx hxp
          rcases List.mem_cons.mp hx with h | h
          · exfalso
            rw [h, hf] at hxp
            cases hxp
            exact hpne rfl
          · exact hB x h hxp
        · rw [List.pairwise_append]
          refine ⟨hpw, List.pairwise_singleton _ _, ?_⟩
          intro a ha b hb
          rw [List.mem_singleton] at hb
          rw [hb]
          apply hlb p0 (List.mem_of_find?_eq_some hf) hnot (f a)
          intro x hx _
          exact hdom a ha x hx
        · intro a ha x hx
          rcases List.mem_append.mp ha with h | h
          · exact hdom' a h x hx
          · rw [List.mem_singleton] at h
            rw [h]
            exact le_trans (hsorted.1 x hx) (hub m (List.mem_cons_self _ _) p0 hf)

/-- Every element is at most the maximum folded from 0. -/
theorem le_foldr_max (l : List Nat) (x : Nat) (hx : x ∈ l) : x ≤ l.foldr max 0 := by
  induction l with
  | nil => cases hx
  | cons a l ih =>
    simp only [List.foldr_cons]
    rcases List.mem_cons.mp hx with h | h
    · rw [h]; exact le_max_left _ _
    · exact le_trans (ih h) (le_max_right _ _)

/-- A bound of all elements bounds the maximum folded from 0. -/
theorem foldr_max_le (l : List Nat) (B : Nat) (h : ∀ x ∈ l, x ≤ B) : l.foldr max 0 ≤ B := by
  induction l with
  | nil => exact Nat.zero_le _
  | cons a l ih =>
    simp only [List.foldr_cons]
    exact max_le (h a (List.mem_cons_self _ _)) (ih (fun x hx => h x (List.mem_cons_of_mem _ hx)))

/-- For a message the user sent or received, being between the user and `p` is
having `p` as the other party. -/
theorem between_iff_otherId (userId partnerId : Nat) (m : Message) :
    between userId partnerId m = true ↔
      (m.sender = userId ∨ m.receiver = userId) ∧ otherId userId m = partnerId := by
  simp only [between, otherId, Bool.or_eq_true, Bool.and_eq_true, beq_iff_eq]
  by_cases hs : m.sender = userId
  · simp only [hs, true_and, true_or, if_true]
    constructor
    · rintro (h | ⟨h1, h2⟩)
      · exact h
      · rw [h1, h2]
    · intro h
      exact Or.inl h
  · simp only [hs, false_and, false_or, if_false]

/-- The loop of `partnerList` when no lookup throws and every key is the key of
a stored user of a well-formed store. -/
theorem partnerList_ok (env : Env) (store : Store) (hwf : store.WellFormed)
    (hfu : ∀ n, env.faults (.userFindOne n) = false) (countMap : List (Nat × Nat))
    (us : List User) (hus : ∀ q ∈ us, q ∈ store.users) :
    (partnerList env store countMap (us.map partnerKey)).2 =
      some (us.map (fun q => ⟨q.username, countOf countMap q._id⟩)) := by
  induction us with
  | nil => rfl
  | cons q rest ih =>
    have hq := findUser_of_mem store hwf q (hus q (List.mem_cons_self _ _))
    have hrest := ih (fun x hx => hus x (List.mem_cons_of_mem _ hx))
    simp [partnerList, partnerKey, hfu, hq] at hrest ⊢
    simp [partnerKey, hrest]

/-- The value read from the `Map` built of one pair per key. -/
theorem countOf_map (l : List Nat) (g : Nat → Nat) (k : Nat) :
    countOf (l.map (fun s => (s, g s))) k = if k ∈ l then g k else 0 := by
  unfold countOf
  cases h : (l.map (fun s => (s, g s))).reverse.find? (fun p => p.1 == k) with
  | none =>
    have hk : k ∉ l := by
      intro hk
      have := (List.find?_eq_none.mp h) (k, g k)
        (List.mem_reverse.mpr (List.mem_map.mpr ⟨k, hk, rfl⟩))
      simp at this
    simp [hk]
  | some p =>
    have hmem := List.mem_reverse.mp (List.mem_of_find?_eq_some h)
    obtain ⟨s, hs, hsp⟩ := List.mem_map.mp hmem
    have hkey : p.1 = k := by
      have := List.find?_some h
      simpa using this
    subst hsp
    simp only at hkey
    subst hkey
    simp [hs]

/-- The count the loop reads for a partner is the number of unseen messages of
that partner to the user. -/
theorem countOf_unseenCounts (store : Store) (userId partnerId : Nat) :
    countOf (unseenCounts store userId) partnerId = unseenCount store partnerId userId := by
  have hlen : (List.filter (fun m => m.sender == partnerId)
      (List.filter (fun m => m.receiver == userId && !m.seen) store.messages)).length =
      unseenCount store partnerId userId := by
    rw [List.filter_filter, ← List.countP_eq_length_filter, unseenCount]
    apply List.countP_congr
    intro m _
    cases m.seen <;> simp [Bool.and_assoc]
  simp only [unseenCounts]
  rw [countOf_map _ (fun s => (List.filter (fun m => m.sender == s)
    (List.filter (fun m => m.receiver == userId && !m.seen) store.messages)).length)]
  split
  · exact hlen
  · rename_i hnot
    symm
    rw [unseenCount, List.countP_eq_zero]
    intro m hm hc
    apply hnot
    simp only [Bool.and_eq_true, beq_iff_eq] at hc
    rw [List.mem_dedup, List.mem_map]
    refine ⟨m, ?_, hc.1.1⟩
    rw [List.mem_filter]
    refine ⟨hm, ?_⟩
    simp [hc.1.2, hc.2]

/-- The run of the recent-partners query on a well-formed store when no call
throws: the partners are `partnerUsers` over the messages of the user, latest
update first. -/
theorem MessageApi.recent_ok (env : Env) (store : Store) (hwf : store.WellFormed)
    (user1 : String) (user : User)
    (hfu : ∀ n, env.faults (.userFindOne n) = false)
    (hff : env.faults .messageFind = false) (hfa : env.faults .messageAggregate = false)
    (hu : findUser store user1 = some user) :
    (MessageApi.recent env store user1).response =
      some ⟨200, .partners
        ((partnerUsers store user._id
          ((store.messages.filter
            (fun m => m.sender == user._id || m.receiver == user._id)).insertionSort
              updatedDesc) []).map
          (fun p => ⟨p.username, unseenCount store p._id user._id⟩))⟩ ∧
    (MessageApi.recent env store user1).store = store := by
  have hsub : ∀ m ∈ (store.messages.filter
      (fun m => m.sender == user._id || m.receiver == user._id)).insertionSort updatedDesc,
      m ∈ store.messages := by
    intro m hm
    exact (List.mem_filter.mp ((List.mem_insertionSort updatedDesc).mp hm)).1
  have hcol := collectPartners_eq store hwf user1 user hu _ [] hsub
  have hlist := partnerList_ok env store hwf hfu (unseenCounts store user._id)
    (partnerUsers store user._id ((store.messages.filter
      (fun m => m.sender == user._id || m.receiver == user._id)).insertionSort updatedDesc) [])
    (partnerUsers_subset store user._id _ [] (fun q hq => by cases hq))
  simp only [List.map_nil] at hcol
  simp only [MessageApi.recent, hfu, hff, hfa, hu, findRecent, hcol, hlist,
    Bool.false_eq_true, if_false, countOf_unseenCounts]
  exact ⟨trivial, trivial⟩

/-- Where no message was updated after it was created, the sort key of the
query is the time of the most recent interaction. -/
theorem lastUpdate_eq_lastInteraction (store : Store)
    (h : ∀ m ∈ store.messages, m.updatedAt = m.createdAt) (userId partnerId : Nat) :
    lastUpdate store userId partnerId = lastInteraction store userId partnerId := by
  unfold lastUpdate lastInteraction
  congr 1
  apply List.map_congr_left
  intro m hm
  exact h m (List.mem_filter.mp hm).1

/-- C11, counterexample: `dan` wrote to `amy` at 5 and to `eve` at 8, so his
most recent interaction is with `eve`, and his list is `eve`, `amy`. Then `amy`
fetches her history with `dan` at time 100 (updates stamped), which only marks
the message of `dan` seen. No message was sent, the most recent interaction of
`dan` is still with `eve`, yet his list is now `amy`, `eve`. -/
theorem recent_order_follows_updates :
    (MessageApi.handler sampleEnv sampleModule bumpStore danRecent).response =
      some ⟨200, .partners [⟨"eve", 0⟩, ⟨"amy", 0⟩]⟩ ∧
    (MessageApi.handler sampleEnv sampleModule
        (MessageApi.handler sampleEnv sampleModule bumpStore amyDanHistory).store
        danRecent).response =
      some ⟨200, .partners [⟨"amy", 0⟩, ⟨"eve", 0⟩]⟩ ∧
    lastInteraction
      (MessageApi.handler sampleEnv sampleModule bumpStore amyDanHistory).store 4 1 = 5 ∧
    lastInteraction
      (MessageApi.handler sampleEnv sampleModule bumpStore amyDanHistory).store 4 5 = 8 ∧
    (MessageApi.handler sampleEnv sampleModule bumpStore amyDanHistory).store.WellFormed := by
  decide

/-- C11, amended: on a well-formed store, for a resolvable user and no call
throwing, the recent-partners query answers 200 with one entry per partner,
where the partners are stored users such that: no username occurs twice; a user
is a partner exactly when some stored message was sent by one of the two to the
other; the partners are in descending order of the latest `updatedAt` of a
message between the two, which is the order of their most recent interaction
wherever no message was updated after it was created; and the `unseen` of an
entry is the number of stored messages with sender the partner, receiver the
user and `seen = false`. -/
theorem recent_partners (env : Env) (srv : SocketModule) (store : Store)
    (req : MessageApi.Request) (user1 : String) (user : User)
    (hwf : store.WellFormed) (hdb : env.dbFails = false) (hm : req.method = "GET")
    (hrec : truthyOpt req.recent = true) (h1 : req.user1 = some user1) (ht1 : user1 ≠ "")
    (hfu : ∀ n, env.faults (.userFindOne n) = false)
    (hff : env.faults .messageFind = false) (hfa : env.faults .messageAggregate = false)
    (hu : findUser store user1 = some user) :
    ∃ partners : List User,
      (MessageApi.handler env srv store req).response =
        some ⟨200, .partners
          (partners.map (fun p => ⟨p.username, unseenCount store p._id user._id⟩))⟩ ∧
      (MessageApi.handler env srv store req).store = store ∧
      (partners.map (fun p => p.username)).Nodup ∧
      (∀ p, p ∈ partners ↔
        p ∈ store.users ∧ ∃ m ∈ store.messages, between user._id p._id m = true) ∧
      partners.Pairwise (fun a b =>
        lastUpdate store user._id b._id ≤ lastUpdate store user._id a._id) ∧
      ((∀ m ∈ store.messages, m.updatedAt = m.createdAt) →
        partners.Pairwise (fun a b =>
          lastInteraction store user._id b._id ≤ lastInteraction store user._id a._id)) := by
  obtain ⟨hresp, hstore⟩ := MessageApi.recent_ok env store hwf user1 user hfu hff hfa hu
  have hhandler : MessageApi.handler env srv store req =
      { MessageApi.recent env store user1 with
        trace := .dbConnect :: (MessageApi.recent env store user1).trace } := by
    simp [MessageApi.handler, MessageApi.get, hdb, hm, hrec, h1, truthy, ht1]
  have hmemS : ∀ m, m ∈ (store.messages.filter
      (fun m => m.sender == user._id || m.receiver == user._id)).insertionSort updatedDesc ↔
      m ∈ store.messages ∧ (m.sender = user._id ∨ m.receiver = user._id) := by
    intro m
    rw [List.mem_insertionSort, List.mem_filter]
    simp
  have hresolve : ∀ m ∈ (store.messages.filter
      (fun m => m.sender == user._id || m.receiver == user._id)).insertionSort updatedDesc,
      ∃ p ∈ store.users, p._id = otherId user._id m := by
    intro m hmS
    obtain ⟨p, hp, hid, _, _⟩ :=
      partnerOf_populate store hwf user1 user hu m ((hmemS m).mp hmS).1
    exact ⟨p, hp, hid⟩
  have hpw : (partnerUsers store user._id ((store.messages.filter
      (fun m => m.sender == user._id || m.receiver == user._id)).insertionSort updatedDesc)
      []).Pairwise (fun a b =>
        lastUpdate store user._id b._id ≤ lastUpdate store user._id a._id) := by
    haveI : IsTotal Message updatedDesc := ⟨fun a b => Nat.le_total b.updatedAt a.updatedAt⟩
    haveI : IsTrans Message updatedDesc :=
      ⟨fun a b c (hab : b.updatedAt ≤ a.updatedAt) (hbc : c.updatedAt ≤ b.updatedAt) =>
        le_trans hbc hab⟩
    apply partnerUsers_pairwise store user._id
      (fun p => lastUpdate store user._id p._id) _ []
    · exact List.sorted_insertionSort updatedDesc _
    · intro m hmS p hf
      have hid : p._id = otherId user._id m := by
        have := List.find?_some hf
        simpa using this
      apply le_foldr_max
      rw [List.mem_map]
      refine ⟨m, ?_, rfl⟩
      rw [List.mem_filter]
      exact ⟨((hmemS m).mp hmS).1,
        (between_iff_otherId _ _ _).mpr ⟨((hmemS m).mp hmS).2, hid.symm⟩⟩
    · intro p hpu _ B hB
      apply foldr_max_le
      intro x hx
      obtain ⟨m, hmf, rfl⟩ := List.mem_map.mp hx
      obtain ⟨hmem, hbet⟩ := List.mem_filter.mp hmf
      obtain ⟨hor, hid⟩ := (between_iff_otherId _ _ _).mp hbet
      apply hB m ((hmemS m).mpr ⟨hmem, hor⟩)
      rw [hid]
      exact findUserById_of_mem store hwf p hpu
    · exact List.Pairwise.nil
    · intro a ha
      cases ha
  refine ⟨_, by rw [hhandler]; exact hresp, by rw [hhandler]; exact hstore, ?_, ?_, hpw, ?_⟩
  · exact partnerUsers_nodup store user._id _ [] List.nodup_nil
  · intro p
    constructor
    · intro hp
      have hpu := partnerUsers_subset store user._id _ [] (fun q hq => by cases hq) p hp
      refine ⟨hpu, ?_⟩
      rcases (partnerUsers_mem store hwf user._id _ [] (fun q hq => by cases hq) hresolve
        p hpu).mp hp with h | ⟨m, hmS, hid⟩
      · cases h
      · exact ⟨m, ((hmemS m).mp hmS).1,
          (between_iff_otherId _ _ _).mpr ⟨((hmemS m).mp hmS).2, hid⟩⟩
    · rintro ⟨hpu, m, hmem, hbet⟩
      obtain ⟨hor, hid⟩ := (between_iff_otherId _ _ _).mp hbet
      exact (partnerUsers_mem store hwf user._id _ [] (fun q hq => by cases hq) hresolve
        p hpu).mpr (Or.inr ⟨m, (hmemS m).mpr ⟨hmem, hor⟩, hid⟩)
  · intro hsame
    refine hpw.imp ?_
    intro a b hab
    rw [← lastUpdate_eq_lastInteraction store hsame, ← lastUpdate_eq_lastInteraction store hsame]
    exact hab

/-- Witness of C11 amended: `amy` has messages with `dan` (latest at 6) and
with `eve` (latest at 9, one of them unseen): the list is `eve` then `dan`,
each with one unseen message. -/
theorem recent_partners_witness :
    (MessageApi.handler sampleEnv sampleModule recentStore sampleRecent).response =
      some ⟨200, .partners [⟨"eve", 1⟩, ⟨"dan", 1⟩]⟩ ∧
    ∃ partners : List User,
      (MessageApi.handler sampleEnv sampleModule recentStore sampleRecent).response =
        some ⟨200, .partners
          (partners.map (fun p => ⟨p.username, unseenCount recentStore p._id 1⟩))⟩ ∧
      (MessageApi.handler sampleEnv sampleModule recentStore sampleRecent).store = recentStore ∧
      (partners.map (fun p => p.username)).Nodup ∧
      (∀ p, p ∈ partners ↔
        p ∈ recentStore.users ∧ ∃ m ∈ recentStore.messages, between 1 p._id m = true) ∧
      partners.Pairwise (fun a b =>
        lastUpdate recentStore 1 b._id ≤ lastUpdate recentStore 1 a._id) ∧
      ((∀ m ∈ recentStore.messages, m.updatedAt = m.createdAt) →
        partners.Pairwise (fun a b =>
          lastInteraction recentStore 1 b._id ≤ lastInteraction recentStore 1 a._id)) :=
  ⟨by decide,
    recent_partners sampleEnv sampleModule recentStore sampleRecent "amy"
      ⟨1, "amy", false, none, none⟩ (by decide) rfl rfl (by decide) rfl (by decide)
      (fun _ => rfl) rfl rfl (by decide)⟩

end RealtimeChat
